import Mathlib

/-!
# Verification of the 3xui-api-client session / security layer

Shallow embedding of the JavaScript sources of `3xui-api-client`:

* `MemorySessionStore` (src/session/SessionManager.js, a.k.a. src/unnamed/part_007,
  lines 38-103) — an expiring key/value map;
* `SessionManager` (same file, lines 347-458) — keying, storing, refresh policy;
* `SecurityMonitor.checkRateLimit` (src/security/SecurityEnhancer.js, lines 147-233);
* `CredentialGenerator.generatePassword` (src/generators/CredentialGenerator.js,
  lines 46-81);
* the client core `ThreeXUI.login` / `ThreeXUI._request` /
  `ThreeXUI._ensureAuthenticated` (src/index.js, lines 114-275), both as a
  sequential function (single caller) and as a small-step interleaving model
  for concurrent callers.

Times are naturals counting milliseconds (JS `Date.now()`); TTLs are naturals
counting seconds, converted with `* 1000` exactly as the source does.
Randomness (`crypto.randomBytes`) and the network are oracles passed as
explicit arguments.
-/

namespace XUI

/-! ## Memory session store

`MemorySessionStore` (part_007 lines 38-103).  The JS class keeps a `Map`
from keys to `{value, expires}` plus a `Map` of timers.  We model the cache
as an association list with unique keys; the timers only ever remove entries
whose `expires` instant has passed, which `get` already does lazily, so the
timer map is not represented (observationally equal for `get`/`set`/`delete`). -/

structure StoreEntry (α : Type) where
  value : α
  expires : Option Nat
  deriving Repr, DecidableEq

/-- The `cache` map of a `MemorySessionStore`. -/
abbrev Store (α : Type) := List (String × StoreEntry α)

/-- `Map.get`-style lookup. -/
def storeLookup {α : Type} : Store α → String → Option (StoreEntry α)
  | [], _ => none
  | (k, e) :: rest, key => if k = key then some e else storeLookup rest key

/-- `Map.delete`. -/
def storeErase {α : Type} (s : Store α) (key : String) : Store α :=
  s.filter (fun p => p.1 ≠ key)

/-- `MemorySessionStore.get` (part_007 lines 45-57): `null` on a missing key;
an entry whose `expires` instant has passed is deleted and reported `null`;
otherwise the stored value is returned.  Returns (result, updated cache). -/
def msGet {α : Type} (s : Store α) (now : Nat) (key : String) :
    Option α × Store α :=
  match storeLookup s key with
  | none => (none, s)
  | some e =>
    match e.expires with
    | some exp => if exp ≤ now then (none, storeErase s key) else (some e.value, s)
    | none => (some e.value, s)

/-- `MemorySessionStore.set` (part_007 lines 59-76): records
`expires = now + ttl*1000` for a positive `ttl` (seconds), no expiry otherwise. -/
def msSet {α : Type} (s : Store α) (now : Nat) (key : String) (v : α)
    (ttl : Nat) : Store α :=
  let expires := if ttl > 0 then some (now + ttl * 1000) else none
  (key, ⟨v, expires⟩) :: storeErase s key

/-- `MemorySessionStore.delete` (part_007 lines 78-85). -/
def msDelete {α : Type} (s : Store α) (key : String) : Store α :=
  storeErase s key

/-! ## SHA-256 (FIPS 180-4)

`SessionManager.generateSessionKey` and `CredentialSecurity.hashForLogging`
call Node's `crypto.createHash('sha256')`.  We implement SHA-256 over the
UTF-8 bytes of the input string; 32-bit words are naturals reduced mod 2^32. -/

namespace SHA256

def w32 : Nat := 2 ^ 32

def rotr (n x : Nat) : Nat :=
  ((x >>> n) ||| (x <<< (32 - n))) % w32

def shr (n x : Nat) : Nat := x >>> n

def bigSigma0 (x : Nat) : Nat := rotr 2 x ^^^ rotr 13 x ^^^ rotr 22 x
def bigSigma1 (x : Nat) : Nat := rotr 6 x ^^^ rotr 11 x ^^^ rotr 25 x
def smallSigma0 (x : Nat) : Nat := rotr 7 x ^^^ rotr 18 x ^^^ shr 3 x
def smallSigma1 (x : Nat) : Nat := rotr 17 x ^^^ rotr 19 x ^^^ shr 10 x

def ch (x y z : Nat) : Nat := (x &&& y) ^^^ ((w32 - 1 - x) &&& z)
def maj (x y z : Nat) : Nat := (x &&& y) ^^^ (x &&& z) ^^^ (y &&& z)

/-- The 64 round constants (FIPS 180-4 §4.2.2), written in decimal. -/
def K : List Nat :=
  [1116352408, 1899447441, 3049323471, 3921009573, 961987163, 1508970993,
   2453635748, 2870763221, 3624381080, 310598401, 607225278, 1426881987,
   1925078388, 2162078206, 2614888103, 3248222580, 3835390401, 4022224774,
   264347078, 604807628, 770255983, 1249150122, 1555081692, 1996064986,
   2554220882, 2821834349, 2952996808, 3210313671, 3336571891, 3584528711,
   113926993, 338241895, 666307205, 773529912, 1294757372, 1396182291,
   1695183700, 1986661051, 2177026350, 2456956037, 2730485921, 2820302411,
   3259730800, 3345764771, 3516065817, 3600352804, 4094571909, 275423344,
   430227734, 506948616, 659060556, 883997877, 958139571, 1322822218,
   1537002063, 1747873779, 1955562222, 2024104815, 2227730452, 2361852424,
   2428436474, 2756734187, 3204031479, 3329325298]

structure Hash where
  a : Nat
  b : Nat
  c : Nat
  d : Nat
  e : Nat
  f : Nat
  g : Nat
  h : Nat
  deriving Repr, DecidableEq

def initHash : Hash :=
  ⟨1779033703, 3144134277, 1013904242, 2773480762,
   1359893119, 2600822924, 528734635, 1541459225⟩

/-- Pad the message (bytes) per FIPS 180-4 §5.1.1. -/
def pad (msg : List Nat) : List Nat :=
  let L := msg.length
  let k := (55 + 64 - L % 64) % 64
  let lenBits := L * 8
  msg ++ [0x80] ++ List.replicate k 0 ++
    [(lenBits >>> 56) % 256, (lenBits >>> 48) % 256, (lenBits >>> 40) % 256,
     (lenBits >>> 32) % 256, (lenBits >>> 24) % 256, (lenBits >>> 16) % 256,
     (lenBits >>> 8) % 256, lenBits % 256]

/-- Split a list into chunks of `n` (n > 0 on all uses). -/
def chunks {α : Type} (n : Nat) : List α → List (List α)
  | [] => []
  | x :: xs =>
    let rec go (acc : List α) (k : Nat) : List α → List (List α)
      | [] => [acc.reverse]
      | y :: ys =>
        match k with
        | 0 => acc.reverse :: go [y] (n - 1) ys
        | k' + 1 => go (y :: acc) k' ys
    go [x] (n - 1) xs

/-- Big-endian 4-byte group to a 32-bit word. -/
def wordOfBytes : List Nat → Nat
  | [b0, b1, b2, b3] => ((b0 * 256 + b1) * 256 + b2) * 256 + b3
  | _ => 0

/-- Message schedule W_0 .. W_63 for one 64-byte block. -/
def schedule (block : List Nat) : List Nat :=
  let w0 := (chunks 4 block).map wordOfBytes
  let rec ext (w : List Nat) (t : Nat) : List Nat :=
    match t with
    | 0 => w
    | t' + 1 =>
      let i := w.length
      let x := (smallSigma1 (w.getD (i - 2) 0) + w.getD (i - 7) 0 +
                smallSigma0 (w.getD (i - 15) 0) + w.getD (i - 16) 0) % w32
      ext (w ++ [x]) t'
  ext w0 48

/-- One round of the compression function. -/
def round (st : Hash) (kt wt : Nat) : Hash :=
  let t1 := (st.h + bigSigma1 st.e + ch st.e st.f st.g + kt + wt) % w32
  let t2 := (bigSigma0 st.a + maj st.a st.b st.c) % w32
  ⟨(t1 + t2) % w32, st.a, st.b, st.c, (st.d + t1) % w32, st.e, st.f, st.g⟩

/-- Process one 512-bit block. -/
def compress (h0 : Hash) (block : List Nat) : Hash :=
  let w := schedule block
  let st := (List.zip K w).foldl (fun st p => round st p.1 p.2) h0
  ⟨(h0.a + st.a) % w32, (h0.b + st.b) % w32, (h0.c + st.c) % w32,
   (h0.d + st.d) % w32, (h0.e + st.e) % w32, (h0.f + st.f) % w32,
   (h0.g + st.g) % w32, (h0.h + st.h) % w32⟩

/-- SHA-256 digest (32 bytes) of a byte list. -/
def digestBytes (msg : List Nat) : List Nat :=
  let final := ((chunks 64 (pad msg)).foldl compress initHash)
  [final.a, final.b, final.c, final.d, final.e, final.f, final.g, final.h].flatMap
    (fun word => [(word >>> 24) % 256, (word >>> 16) % 256, (word >>> 8) % 256,
                  word % 256])

/-- The lowercase hex digit with value `n` (codepoints computed, `n < 16`
on all uses). -/
def hexDigit (n : Nat) : Char :=
  Char.ofNat (if n < 10 then 48 + n else 87 + n)

def hexDigits : List Char := (List.range 16).map hexDigit

/-- Lowercase hex rendering of a byte list (Node's `.digest('hex')`). -/
def toHex (bytes : List Nat) : String :=
  String.mk (bytes.flatMap (fun b => [hexDigit (b / 16 % 16), hexDigit (b % 16)]))

end SHA256

/-- UTF-8 encoding of one character (RFC 3629), as byte values. -/
def utf8EncodeCharNat (c : Char) : List Nat :=
  let n := c.toNat
  if n < 0x80 then [n]
  else if n < 0x800 then
    [0xC0 ||| (n >>> 6), 0x80 ||| (n &&& 0x3F)]
  else if n < 0x10000 then
    [0xE0 ||| (n >>> 12), 0x80 ||| ((n >>> 6) &&& 0x3F), 0x80 ||| (n &&& 0x3F)]
  else
    [0xF0 ||| (n >>> 18), 0x80 ||| ((n >>> 12) &&& 0x3F),
     0x80 ||| ((n >>> 6) &&& 0x3F), 0x80 ||| (n &&& 0x3F)]

/-- UTF-8 bytes of a string, as naturals (what `hash.update(s)` digests). -/
def utf8Bytes (s : String) : List Nat := s.data.flatMap utf8EncodeCharNat

/-- Lowercase-hex SHA-256 digest of a string, as computed by
`crypto.createHash('sha256').update(s).digest('hex')`. -/
def sha256hex (s : String) : String := SHA256.toHex (SHA256.digestBytes (utf8Bytes s))

/-! ## SessionManager -/

/-- The pre-hash string `` `${baseURL}:${username}` `` used by
`generateSessionKey` (part_007 line 373). -/
def preHash (baseURL username : String) : String := baseURL ++ ":" ++ username

/-- `SessionManager.generateSessionKey` (part_007 lines 370-376). -/
def generateSessionKey (baseURL username : String) : String :=
  "session_" ++ sha256hex (preHash baseURL username)

/-- `CredentialSecurity.hashForLogging` (SecurityEnhancer.js lines 239-245):
first 12 hex chars of the SHA-256 digest. -/
def hashForLogging (value : String) : String := (sha256hex value).take 12

/-- The character allow-list of `InputValidator.validateUsername`
(SecurityEnhancer.js line 45): the regex `/[^\w.@+-]/` must not match,
i.e. every character is in `[A-Za-z0-9_.@+-]`. -/
def usernameCharOk (c : Char) : Bool :=
  ('A' ≤ c && c ≤ 'Z') || ('a' ≤ c && c ≤ 'z') || ('0' ≤ c && c ≤ '9') ||
    c = '_' || c = '.' || c = '@' || c = '+' || c = '-'

/-- `InputValidator.validateUsername` on an already-trimmed string
(SecurityEnhancer.js lines 36-49): non-empty, at most 100 characters, all
characters from the allow-list.  (All allow-list characters are
non-whitespace, so trimming is the identity on valid usernames.) -/
def validUsername (u : String) : Bool :=
  u ≠ "" && u.length ≤ 100 && u.data.all usernameCharOk

/-- The session record stored by `SessionManager.storeSession` / read back by
`getSession`.  The JS object is `{...sessionData, createdAt, baseURL,
username}` where the client core's `sessionData` is `{cookie, loginTime}`;
the fields the code ever branches on are `cookie` and `createdAt`, both of
which may be absent on records written by other producers. -/
structure SessionData where
  cookie : Option String
  createdAt : Option Nat
  deriving Repr, DecidableEq

/-- `SessionManager` configuration (part_007 lines 348-352).  The JS
`refreshThreshold` is a float (default 0.8); we carry it as the exact
rational `refreshNum / refreshDen`.  With the defaults
(`sessionTTL = 3600`, threshold `8/10`) the JS float product
`maxAge * 0.8 = 2880000` is exact, so the models agree. -/
structure SMConfig where
  sessionTTL : Nat := 3600
  refreshNum : Nat := 8
  refreshDen : Nat := 10
  autoRefresh : Bool := true
  deriving Repr, DecidableEq

/-- `SessionManager.shouldRefreshSession` (part_007 lines 422-432): true if
the record has no `createdAt`, or `age ≥ maxAge * threshold` where
`age = now - createdAt` and `maxAge = sessionTTL * 1000`.  The comparison is
cross-multiplied to stay in exact arithmetic. -/
def shouldRefreshSession (cfg : SMConfig) (now : Nat) (s : SessionData) : Bool :=
  match s.createdAt with
  | none => true
  | some c => (now - c) * cfg.refreshDen ≥ cfg.sessionTTL * 1000 * cfg.refreshNum

/-- `SessionManager.getSession` (part_007 lines 397-400). -/
def getSession (store : Store SessionData) (now : Nat) (baseURL username : String) :
    Option SessionData × Store SessionData :=
  msGet store now (generateSessionKey baseURL username)

/-- `SessionManager.storeSession` (part_007 lines 381-392): overrides
`createdAt` with the current time and stores under the derived key with the
configured TTL. -/
def storeSession (cfg : SMConfig) (store : Store SessionData) (now : Nat)
    (baseURL username : String) (data : SessionData) : Store SessionData :=
  msSet store now (generateSessionKey baseURL username)
    { data with createdAt := some now } cfg.sessionTTL

/-- `SessionManager.hasValidSession` (part_007 lines 405-417): false when the
record is absent, false when `autoRefresh` is on and the record has crossed
the refresh threshold, true otherwise. -/
def hasValidSession (cfg : SMConfig) (store : Store SessionData) (now : Nat)
    (baseURL username : String) : Bool × Store SessionData :=
  let (s?, store') := getSession store now baseURL username
  match s? with
  | none => (false, store')
  | some s =>
    if cfg.autoRefresh && shouldRefreshSession cfg now s then (false, store')
    else (true, store')

/-! ## SecurityMonitor

`SecurityMonitor` (SecurityEnhancer.js lines 147-233).  Activities carry a
type string; `checkRateLimit` keeps one timestamp ledger per identifier and
kind (`requestLog` / `loginLog`). -/

/-- One suspicious-activity record (`logSuspiciousActivity`, lines 198-212);
only the `type` field is ever branched on by the claims. -/
structure Activity where
  type : String
  deriving Repr, DecidableEq

/-- Ledger: identifier ↦ timestamp list. -/
abbrev RateLog := List (String × List Nat)

def logLookup : RateLog → String → List Nat
  | [], _ => []
  | (k, ts) :: rest, key => if k = key then ts else logLookup rest key

def logSet (log : RateLog) (key : String) (ts : List Nat) : RateLog :=
  (key, ts) :: log.filter (fun p => p.1 ≠ key)

/-- `SecurityMonitor._prune` (lines 157-167): filter every ledger to the
window, deleting identifiers whose ledger becomes empty. -/
def pruneLog (log : RateLog) (now windowMs : Nat) : RateLog :=
  log.filterMap (fun p =>
    let pruned := p.2.filter (fun ts => now - ts ≤ windowMs)
    if pruned.isEmpty then none else some (p.1, pruned))

structure MonitorConfig where
  maxRequestsPerMinute : Nat := 60
  maxLoginAttemptsPerHour : Nat := 10
  deriving Repr, DecidableEq

structure MonitorState where
  requestLog : RateLog
  loginLog : RateLog
  activities : List Activity
  deriving Repr, DecidableEq

def MonitorState.empty : MonitorState := ⟨[], [], []⟩

/-- `SecurityMonitor.logSuspiciousActivity` (lines 198-212): push the event,
keep the most recent 200. -/
def logSuspiciousActivity (st : MonitorState) (type : String) : MonitorState :=
  let a := st.activities ++ [⟨type⟩]
  { st with activities := if a.length > 200 then a.tail else a }

/-- `SecurityMonitor.checkRateLimit` (lines 169-196), for `type = 'login'`
(window 3600 s) or any other type (window 60 s): prune the identifier's
ledger to the window, append `now`, store it back (the global `_prune` pass
does not change this identifier's fresh ledger), and allow iff the resulting
count is within the configured maximum; on refusal also log a
`rate_limit_exceeded` activity. -/
def checkRateLimit (cfg : MonitorConfig) (st : MonitorState) (now : Nat)
    (identifier : String) (type : String) : Bool × MonitorState :=
  if type = "login" then
    let windowMs := 60 * 60 * 1000
    let pruned := (logLookup st.loginLog identifier).filter
      (fun ts => now - ts ≤ windowMs) ++ [now]
    let log' := pruneLog (logSet st.loginLog identifier pruned) now windowMs
    let allowed := pruned.length ≤ cfg.maxLoginAttemptsPerHour
    let st' := { st with loginLog := log' }
    (allowed, if allowed then st' else logSuspiciousActivity st' "rate_limit_exceeded")
  else
    let windowMs := 60 * 1000
    let pruned := (logLookup st.requestLog identifier).filter
      (fun ts => now - ts ≤ windowMs) ++ [now]
    let log' := pruneLog (logSet st.requestLog identifier pruned) now windowMs
    let allowed := pruned.length ≤ cfg.maxRequestsPerMinute
    let st' := { st with requestLog := log' }
    (allowed, if allowed then st' else logSuspiciousActivity st' "rate_limit_exceeded")

/-! ## CredentialGenerator.generatePassword -/

/-- Options of `generatePassword` (CredentialGenerator.js lines 47-53),
with the source's defaults. -/
structure PasswordOptions where
  includeUppercase : Bool := true
  includeLowercase : Bool := true
  includeNumbers : Bool := true
  includeSymbols : Bool := false
  excludeSimilar : Bool := true
  deriving Repr, DecidableEq

def uppercaseChars : List Char := "ABCDEFGHIJKLMNOPQRSTUVWXYZ".data
def lowercaseChars : List Char := "abcdefghijklmnopqrstuvwxyz".data
def numberChars : List Char := "0123456789".data
def symbolChars : List Char := "!@#$%^&*()_+-=[]{}|;:,.<>?".data

/-- The visually-similar characters removed by `excludeSimilar`
(the regex `/[0O1lI]/g`, line 71). -/
def similarChars : List Char := ['0', 'O', '1', 'l', 'I']

/-- The character pool built in lines 55-72: concatenate the selected
classes, then remove the similar-looking characters if requested. -/
def passwordChars (o : PasswordOptions) : List Char :=
  let cs :=
    (if o.includeUppercase then uppercaseChars else []) ++
    (if o.includeLowercase then lowercaseChars else []) ++
    (if o.includeNumbers then numberChars else []) ++
    (if o.includeSymbols then symbolChars else [])
  if o.excludeSimilar then cs.filter (fun c => decide (c ∉ similarChars)) else cs

/-- `CredentialGenerator.generatePassword` (lines 46-81).  The bytes of
`crypto.randomBytes(length)` are the oracle `rand` (one byte per output
character); each byte indexes the pool by `byte % chars.length`.  Throws
when the pool is empty. -/
def generatePassword (length : Nat) (o : PasswordOptions) (rand : List Nat) :
    Except String String :=
  let chars := passwordChars o
  if chars.length = 0 then
    .error "No character sets selected for password generation"
  else
    .ok (String.mk ((rand.take length).map
      (fun byte => chars.getD (byte % chars.length) 'A')))

/-! ## Client core — sequential model

`ThreeXUI.login` / `ThreeXUI._request` (src/index.js lines 114-253) for a
single caller: `this.loginMutex` is `false` throughout, so
`_ensureAuthenticated(f)` is exactly `login(f)` wrapped in the mutex
acquire/release.  The network is an oracle: `loginNet k` is the outcome of
the `k`-th `POST /login` (indexed by `netLoginCalls`), and `op i c` is the
panel endpoint's answer to the `i`-th attempt of the wrapped operation when
the client sends cookie `c`.  `netLoginCalls` instruments the number of
network login calls so "zero network calls" claims are expressible. -/

/-- An axios-style error: `status` is `error.response.status` when a
response exists (`none` models errors without a response, and plain thrown
`Error`s). -/
structure JsError where
  status : Option Nat
  msg : String
  deriving Repr, DecidableEq

/-- Outcome of one network `POST /login`. -/
inductive LoginNet where
  /-- `data.success` true and a `set-cookie` header whose first cookie is `cookie`. -/
  | success (cookie : String)
  /-- `data.success` true but no `set-cookie` header (line 172). -/
  | noCookie
  /-- `data.success` false, message `msg` (line 181). -/
  | failure (msg : String)
  deriving Repr, DecidableEq

structure ClientConfig where
  smCfg : SMConfig := {}
  monCfg : MonitorConfig := {}
  maxLoginRetries : Nat := 3
  deriving Repr, DecidableEq

structure ClientState where
  baseURL : String
  username : String
  cookie : Option String
  loginRetryCount : Nat
  store : Store SessionData
  monitor : MonitorState
  /-- Instrumentation: number of network `POST /login` calls made so far. -/
  netLoginCalls : Nat
  deriving Repr, DecidableEq

/-- `login`'s value on success: `{success: true, fromCache, data}`. -/
structure LoginOk where
  fromCache : Bool
  deriving Repr, DecidableEq

/-- The catch block of `login` (lines 183-202): log a
`multiple_failed_logins` activity when the retry counter has reached the
maximum, then rethrow the (message-preserving) sanitized error. -/
def loginCatch (cfg : ClientConfig) (st : ClientState) (msg : String) :
    Except JsError LoginOk × ClientState :=
  let st :=
    if st.loginRetryCount ≥ cfg.maxLoginRetries then
      { st with monitor := logSuspiciousActivity st.monitor "multiple_failed_logins" }
    else st
  (.error ⟨none, msg⟩, st)

/-- The network part of `login` (lines 141-202): one `POST /login`; on
success store the cookie and the session and reset the retry counter. -/
def loginNetwork (cfg : ClientConfig) (st : ClientState) (now : Nat)
    (loginNet : Nat → LoginNet) : Except JsError LoginOk × ClientState :=
  let res := loginNet st.netLoginCalls
  let st := { st with netLoginCalls := st.netLoginCalls + 1 }
  match res with
  | .success c =>
    let store' := storeSession cfg.smCfg st.store now st.baseURL st.username
      ⟨some c, none⟩
    (.ok ⟨false⟩,
      { st with cookie := some c, store := store', loginRetryCount := 0 })
  | .noCookie => loginCatch cfg st "Login failed: No session cookie received."
  | .failure msg => loginCatch cfg st ("Login failed: " ++ msg)

/-- `ThreeXUI.login` (lines 114-203): login rate limit first; increment the
retry counter; unless `forceRefresh`, restore a cached session that has a
`cookie` field (resetting the counter, zero network calls); otherwise
perform the network login. -/
def login (cfg : ClientConfig) (st : ClientState) (now : Nat)
    (loginNet : Nat → LoginNet) (forceRefresh : Bool) :
    Except JsError LoginOk × ClientState :=
  let identifier := hashForLogging st.username
  let (allowed, mon') := checkRateLimit cfg.monCfg st.monitor now identifier "login"
  let st1 := { st with monitor := mon' }
  if allowed then
    let st2 := { st1 with loginRetryCount := st1.loginRetryCount + 1 }
    let (sess?, store') :=
      if forceRefresh then (none, st2.store)
      else getSession st2.store now st2.baseURL st2.username
    let st3 := { st2 with store := store' }
    match sess? with
    | some s =>
      match s.cookie with
      | some c =>
        (.ok ⟨true⟩, { st3 with cookie := some c, loginRetryCount := 0 })
      | none => loginNetwork cfg st3 now loginNet
    | none => loginNetwork cfg st3 now loginNet
  else
    (.error ⟨none, "Rate limit exceeded for login attempts"⟩, st1)

/-- The terminal error of `_request` when a 401 arrives with the retry
budget exhausted (line 248). -/
def maxRetriesError : JsError :=
  ⟨none, "Maximum login retry attempts exceeded. Check your credentials."⟩

deriving instance DecidableEq for Except

/-- Result of one `_request` dispatch, instrumented with the number of HTTP
attempts made against the operation's endpoint. -/
structure RequestOut where
  result : Except JsError String
  state : ClientState
  opAttempts : Nat
  deriving Repr, DecidableEq

/-- `ThreeXUI._request` (lines 217-253), single caller (`loginMutex`
false): ensure authentication when the session is invalid or no cookie is
held; issue the operation; on a 401 with retry budget left force a fresh
login and retry exactly once, with the retry's outcome (success or error)
returned as-is; on a 401 without budget fail with `maxRetriesError`; any
other error propagates unchanged. -/
def request (cfg : ClientConfig) (st : ClientState) (now : Nat)
    (loginNet : Nat → LoginNet)
    (op : Nat → Option String → Except JsError String) : RequestOut :=
  let (valid, store') := hasValidSession cfg.smCfg st.store now st.baseURL st.username
  let st0 := { st with store := store' }
  let auth : Except JsError Unit × ClientState :=
    if valid = false then
      let (r, st') := login cfg st0 now loginNet false
      (r.map (fun _ => ()), st')
    else if st0.cookie = none then
      let (r, st') := login cfg st0 now loginNet false
      (r.map (fun _ => ()), st')
    else (.ok (), st0)
  match auth with
  | (.error e, st') => ⟨.error e, st', 0⟩
  | (.ok _, st') =>
    match op 0 st'.cookie with
    | .ok d => ⟨.ok d, { st' with loginRetryCount := 0 }, 1⟩
    | .error e =>
      if e.status = some 401 then
        if st'.loginRetryCount < cfg.maxLoginRetries then
          match login cfg st' now loginNet true with
          | (.error e2, st'') => ⟨.error e2, st'', 1⟩
          | (.ok _, st'') =>
            match op 1 st''.cookie with
            | .ok d => ⟨.ok d, st'', 2⟩
            | .error e2 => ⟨.error e2, st'', 2⟩
        else ⟨.error maxRetriesError, st', 1⟩
      else ⟨.error e, st', 1⟩

/-! ## Client core — concurrent interleaving model

Small-step model of N panel operations running concurrently on one client
instance (src/index.js lines 217-275), for the spec's scenario: empty
session cache, a login endpoint that always succeeds (stubbed login), a
panel endpoint that answers an operation iff a session cookie accompanies
it and 401 otherwise.  JavaScript's event loop interleaves the operations
only at `await` points; each `PC` step below is a synchronous stretch of
the source between awaits (collapsing an await with the immediately
following synchronous code, which a scheduler may always realize by
resuming that task next).  Cookies are numbered tokens 1, 2, …, the `k`-th
network login producing token `k`.  A schedule is the list of task indices
in execution order; steps of a terminal or out-of-range task are no-ops. -/

namespace Conc

/-- Program counter of one in-flight operation. -/
inductive PC where
  /-- `_request` entry: the two synchronous mutex/session guards (lines 219-223). -/
  | reqPre
  /-- `_ensureAuthenticated` entry: `if (this.loginMutex)` … else acquire
  (lines 261, 269); `cont` is the operation attempt to issue afterwards
  (0 = first attempt, 1 = the post-401 retry). -/
  | eaCheck (force : Bool) (cont : Nat)
  /-- one iteration of the polling `while (this.loginMutex)` wait (lines 263-265). -/
  | eaWait (force : Bool) (cont : Nat)
  /-- inside `login`, mutex held: rate-limit check, counter increment and
  cached-session check (lines 116-139). -/
  | loginStart (force : Bool) (cont : Nat)
  /-- inside `login`, mutex held: the network `POST /login` resolving,
  session storage, and the `finally` release (lines 141-170, 272-274). -/
  | loginNet (force : Bool) (cont : Nat)
  /-- send operation attempt `attempt` with the current cookie (lines 226-231, 240-245). -/
  | issue (attempt : Nat)
  /-- the response for attempt `attempt`, which was sent with cookie `sent`,
  arrives and is handled (lines 232-252). -/
  | awaitResp (attempt : Nat) (sent : Option Nat)
  /-- operation returned its data, obtained with session token `token`. -/
  | doneOk (token : Nat)
  /-- operation failed: 0 = login rate limit, 1 = `maxRetriesError`,
  2 = the retry's own error propagating. -/
  | doneErr (code : Nat)
  deriving Repr, DecidableEq

/-- The client instance's shared mutable fields.  `attempts` is the length
of the login rate-limiter ledger for this client's identifier (the whole
scenario happens inside one rate window, so pruning removes nothing). -/
structure Shared where
  mutex : Bool
  cookie : Option Nat
  cache : Option Nat
  retryCount : Nat
  attempts : Nat
  netLogins : Nat
  deriving Repr, DecidableEq

def maxLoginRetries : Nat := 3
def maxLoginAttemptsPerHour : Nat := 10

/-- One task step.  The session records created during the scenario are
fresh (age 0 < the refresh threshold), so `hasValidSession` is simply
`cache ≠ none`. -/
def stepPC (sh : Shared) : PC → Shared × PC
  | .reqPre =>
    if sh.mutex = false ∧ sh.cache = none then (sh, .eaCheck false 0)
    else if sh.mutex = false ∧ sh.cookie = none then (sh, .eaCheck false 0)
    else (sh, .issue 0)
  | .eaCheck f k =>
    if sh.mutex then (sh, .eaWait f k)
    else ({ sh with mutex := true }, .loginStart f k)
  | .eaWait f k =>
    if sh.mutex then (sh, .eaWait f k) else (sh, .issue k)
  | .loginStart f k =>
    let sh1 := { sh with attempts := sh.attempts + 1 }
    if sh1.attempts > maxLoginAttemptsPerHour then
      ({ sh1 with mutex := false }, .doneErr 0)
    else
      let sh2 := { sh1 with retryCount := sh1.retryCount + 1 }
      match f, sh2.cache with
      | false, some t =>
        ({ sh2 with cookie := some t, retryCount := 0, mutex := false }, .issue k)
      | _, _ => (sh2, .loginNet f k)
  | .loginNet _ k =>
    let t := sh.netLogins + 1
    ({ sh with netLogins := t, cookie := some t, cache := some t,
               retryCount := 0, mutex := false }, .issue k)
  | .issue a => (sh, .awaitResp a sh.cookie)
  | .awaitResp a sent =>
    match sent with
    | some t =>
      if a = 0 then ({ sh with retryCount := 0 }, .doneOk t) else (sh, .doneOk t)
    | none =>
      if a = 0 then
        if sh.retryCount < maxLoginRetries then (sh, .eaCheck true 1)
        else (sh, .doneErr 1)
      else (sh, .doneErr 2)
  | .doneOk t => (sh, .doneOk t)
  | .doneErr c => (sh, .doneErr c)

structure Config where
  shared : Shared
  tasks : List PC
  deriving Repr, DecidableEq

def step (c : Config) (i : Nat) : Config :=
  match c.tasks.get? i with
  | none => c
  | some pc =>
    let r := stepPC c.shared pc
    ⟨r.1, c.tasks.set i r.2⟩

def run (c : Config) (sched : List Nat) : Config := sched.foldl step c

/-- N operations start concurrently with no cached session. -/
def init (n : Nat) : Config :=
  ⟨⟨false, none, none, 0, 0, 0⟩, List.replicate n .reqPre⟩

/-- A login attempt is in flight during `loginStart`/`loginNet`. -/
def isHolding : PC → Bool
  | .loginStart _ _ => true
  | .loginNet _ _ => true
  | _ => false

/-- Mutual-exclusion invariant: the mutex is held by exactly one task in
the login section, or by none when free. -/
def MutexInv (c : Config) : Prop :=
  if c.shared.mutex then
    ∃ h, h < c.tasks.length ∧ isHolding (c.tasks.getD h .reqPre) = true ∧
      ∀ j, j ≠ h → isHolding (c.tasks.getD j .reqPre) = false
  else ∀ j, isHolding (c.tasks.getD j .reqPre) = false

/-- Token sanity: a token seen anywhere was issued by one of the network
logins so far. -/
def tokOk (sh : Shared) (t : Nat) : Prop := 1 ≤ t ∧ t ≤ sh.netLogins

def optOk (sh : Shared) : Option Nat → Prop
  | none => True
  | some t => tokOk sh t

def pcOk (sh : Shared) : PC → Prop
  | .awaitResp _ sent => optOk sh sent
  | .doneOk t => tokOk sh t
  | _ => True

def TokInv (c : Config) : Prop :=
  optOk c.shared c.shared.cookie ∧ optOk c.shared c.shared.cache ∧
    ∀ j, pcOk c.shared (c.tasks.getD j .reqPre)

/-- An operation reached its successful terminal state. -/
def isDoneOk : PC → Bool
  | .doneOk _ => true
  | _ => false

/-- A burst schedule for 10 concurrent operations: task 0 acquires the
mutex and logs in; tasks 1-9 start while the login is in flight, issue
their first attempt without a cookie, get a 401 and end up waiting on the
mutex; then task 0 finishes and every waiter retries with the one token. -/
def sched10 : List Nat :=
  [0, 0] ++ ([1, 2, 3, 4, 5, 6, 7, 8, 9].flatMap (fun i => [i, i, i, i])) ++
    [0, 0, 0, 0] ++ ([1, 2, 3, 4, 5, 6, 7, 8, 9].flatMap (fun i => [i, i, i]))

end Conc

/-! ## Helper lemmas -/

theorem storeLookup_erase {α : Type} (s : Store α) (key : String) :
    storeLookup (storeErase s key) key = none := by
  induction s with
  | nil => rfl
  | cons p rest ih =>
    by_cases h : p.1 = key
    · simpa [storeErase, List.filter_cons, h] using ih
    · simpa [storeErase, List.filter_cons, h, storeLookup] using ih

theorem storeLookup_set_self {α : Type} (s : Store α) (now : Nat) (key : String)
    (v : α) (ttl : Nat) :
    storeLookup (msSet s now key v ttl) key =
      some ⟨v, if ttl > 0 then some (now + ttl * 1000) else none⟩ := by
  simp [msSet, storeLookup]

/-! ## C5 — memory store round-trip and expiry -/

/-- **C5**: for the memory session store, `set(key, value, ttl)` followed by
`get(key)` strictly before the expiry instant `now + ttl·1000` returns
exactly the stored value; at or after that instant `get` returns `null`;
`get` of a never-stored key returns `null`; and `get` after `delete`
returns `null` — all indistinguishable from "never set".  The eviction is
performed lazily by `get` itself from the recorded expiry instant,
independently of the timer. -/
theorem c5_memoryStore_spec {α : Type} (store : Store α) (now now' : Nat)
    (key : String) (v : α) (ttl : Nat) (httl : 0 < ttl) :
    (now' < now + ttl * 1000 →
      (msGet (msSet store now key v ttl) now' key).1 = some v) ∧
    (now + ttl * 1000 ≤ now' →
      (msGet (msSet store now key v ttl) now' key).1 = none) ∧
    (storeLookup store key = none → (msGet store now' key).1 = none) ∧
    (msGet (msDelete store key) now' key).1 = none := by
  refine ⟨?_, ?_, ?_, ?_⟩
  · intro h
    simp [msGet, storeLookup_set_self, httl, Nat.not_le.mpr h]
  · intro h
    simp [msGet, storeLookup_set_self, httl, h]
  · intro h
    simp [msGet, h]
  · simp [msGet, msDelete, storeLookup_erase]

/-- Witness for C5 at concrete inputs (`ttl = 1` second, retrievable at
`t = 0.5 s`, gone at `t = 1.5 s`, mirroring the spec's expiry scenario). -/
theorem c5_memoryStore_spec_witness :
    (0 : Nat) < 1 ∧
    (msGet (msSet ([] : Store Nat) 0 "k" 42 1) 500 "k").1 = some 42 ∧
    (msGet (msSet ([] : Store Nat) 0 "k" 42 1) 1500 "k").1 = none ∧
    (msGet ([] : Store Nat) 500 "k").1 = none ∧
    (msGet (msDelete (msSet ([] : Store Nat) 0 "k" 42 1) "k") 500 "k").1 = none := by
  have h := c5_memoryStore_spec (msSet ([] : Store Nat) 0 "k" 42 1) 0 500 "k" 42 1
    (by decide)
  have h0 := c5_memoryStore_spec ([] : Store Nat) 0 500 "k" 42 1 (by decide)
  have h1 := c5_memoryStore_spec ([] : Store Nat) 0 1500 "k" 42 1 (by decide)
  exact ⟨by decide, h0.1 (by decide), h1.2.1 (by decide),
    h0.2.2.1 (by decide), h.2.2.2⟩

/-! ## C3 — hasValidSession / shouldRefreshSession -/

/-- **C3**: `hasValidSession` (default options) is false exactly when
`getSession` yields no record or `shouldRefreshSession` holds of the
record; with default options (`sessionTTL = 3600` s, threshold `0.8`)
`shouldRefreshSession` holds exactly when the record has no `createdAt` or
`now - createdAt ≥ 2 880 000` ms (= 3600 s × 0.8). -/
theorem c3_hasValidSession_spec (store : Store SessionData) (now : Nat)
    (baseURL username : String) (s : SessionData) (t : Nat) :
    ((getSession store now baseURL username).1 = none →
      (hasValidSession {} store now baseURL username).1 = false) ∧
    ((getSession store now baseURL username).1 = some s →
      ((hasValidSession {} store now baseURL username).1 = false ↔
        shouldRefreshSession {} now s = true)) ∧
    (s.createdAt = none → shouldRefreshSession {} now s = true) ∧
    (s.createdAt = some t →
      (shouldRefreshSession {} now s = true ↔ 2880000 ≤ now - t)) := by
  rcases hg : getSession store now baseURL username with ⟨s?, store2⟩
  refine ⟨?_, ?_, ?_, ?_⟩
  · intro h
    simp only at h
    subst h
    simp [hasValidSession, hg]
  · intro h
    simp only at h
    subst h
    cases hsr : shouldRefreshSession {} now s <;>
      simp [hasValidSession, hg, hsr]
  · intro h
    simp [shouldRefreshSession, h]
  · intro h
    simp only [shouldRefreshSession, h, SMConfig.sessionTTL, SMConfig.refreshNum,
      SMConfig.refreshDen, ge_iff_le, decide_eq_true_eq]
    omega

/-- Witness for C3: a record created at time 0 read at the exact default
threshold instant (2 880 000 ms) is reported stale, and the stored session
is reported invalid. -/
theorem c3_hasValidSession_spec_witness :
    (getSession [(generateSessionKey "https://x" "admin",
        ⟨⟨some "c", some 0⟩, some 3600000⟩)] 2880000 "https://x" "admin").1 =
      some ⟨some "c", some 0⟩ ∧
    shouldRefreshSession {} 2880000 ⟨some "c", some 0⟩ = true ∧
    (hasValidSession {} [(generateSessionKey "https://x" "admin",
        ⟨⟨some "c", some 0⟩, some 3600000⟩)] 2880000 "https://x" "admin").1 = false := by
  have hget : (getSession [(generateSessionKey "https://x" "admin",
      ⟨⟨some "c", some 0⟩, some 3600000⟩)] 2880000 "https://x" "admin").1 =
      some ⟨some "c", some 0⟩ := by
    simp [getSession, msGet, storeLookup]
  have h := c3_hasValidSession_spec [(generateSessionKey "https://x" "admin",
    ⟨⟨some "c", some 0⟩, some 3600000⟩)] 2880000 "https://x" "admin"
    ⟨some "c", some 0⟩ 0
  have hstale : shouldRefreshSession {} 2880000 ⟨some "c", some 0⟩ = true :=
    (h.2.2.2 rfl).mpr (by omega)
  exact ⟨hget, hstale, (h.2.1 hget).mpr hstale⟩

/-! ## C6 — generateSessionKey -/

theorem colon_append_inj (b₁ u₁ b₂ u₂ : List Char)
    (h₁ : ':' ∉ u₁) (h₂ : ':' ∉ u₂) :
    b₁ ++ ':' :: u₁ = b₂ ++ ':' :: u₂ → b₁ = b₂ ∧ u₁ = u₂ := by
  induction b₁ generalizing b₂ with
  | nil =>
    intro h
    cases b₂ with
    | nil => simpa using h
    | cons c bs =>
      simp only [List.nil_append, List.cons_append, List.cons.injEq] at h
      obtain ⟨hc, hu⟩ := h
      refine absurd ?_ h₁
      rw [hu]
      exact List.mem_append_right bs (List.mem_cons_self ':' u₂)
  | cons c bs ih =>
    intro h
    cases b₂ with
    | nil =>
      simp only [List.cons_append, List.nil_append, List.cons.injEq] at h
      obtain ⟨hc, hu⟩ := h
      refine absurd ?_ h₂
      rw [← hu]
      exact List.mem_append_right bs (List.mem_cons_self ':' u₁)
    | cons c₂ bs₂ =>
      simp only [List.cons_append, List.cons.injEq] at h
      obtain ⟨hc, ht⟩ := h
      obtain ⟨hb, hu⟩ := ih bs₂ ht
      exact ⟨by rw [hc, hb], hu⟩

theorem preHash_data (b u : String) :
    (preHash b u).data = b.data ++ ':' :: u.data := by
  simp [preHash, String.data_append]

theorem validUsername_no_colon (u : String) (h : validUsername u = true) :
    ':' ∉ u.data := by
  intro hmem
  simp only [validUsername, Bool.and_eq_true, List.all_eq_true] at h
  have hc := h.2 ':' hmem
  exact absurd hc (by decide)

/-- The digest part of a session key: 64 characters, all lowercase hex. -/
theorem sha256hex_shape (s : String) :
    (sha256hex s).length = 64 ∧
      ∀ c ∈ (sha256hex s).data, c ∈ SHA256.hexDigits := by
  constructor
  · simp [sha256hex, SHA256.toHex, SHA256.digestBytes, String.length,
      List.length_flatMap]
  · intro c hc
    simp only [sha256hex, SHA256.toHex, String.mk, List.mem_flatMap] at hc
    obtain ⟨b, _, hb⟩ := hc
    have hd : ∀ i : Nat, i < 16 → SHA256.hexDigit i ∈ SHA256.hexDigits := by
      intro i hi
      exact List.mem_map.mpr ⟨i, List.mem_range.mpr hi, rfl⟩
    simp only [List.mem_cons, List.not_mem_nil, or_false] at hb
    rcases hb with hb | hb
    · exact hb ▸ hd _ (Nat.mod_lt _ (by decide))
    · exact hb ▸ hd _ (Nat.mod_lt _ (by decide))

/-- **C6**: `generateSessionKey baseURL username` is the fixed prefix
`"session_"` followed by the lowercase-hex SHA-256 digest (64 hex
characters) of the pre-hash string `baseURL ++ ":" ++ username`; it is a
pure function of its two arguments (no salt), and for any two distinct
pairs whose usernames pass `validateUsername` (whose allow-list
`[A-Za-z0-9_.@+-]` excludes the colon) the pre-hash strings differ, so
distinct pairs collide only through a SHA-256 collision. -/
theorem c6_generateSessionKey_spec (b₁ u₁ b₂ u₂ : String)
    (h₁ : validUsername u₁ = true) (h₂ : validUsername u₂ = true)
    (hne : b₁ ≠ b₂ ∨ u₁ ≠ u₂) :
    generateSessionKey b₁ u₁ = "session_" ++ sha256hex (preHash b₁ u₁) ∧
    (sha256hex (preHash b₁ u₁)).length = 64 ∧
    (∀ c ∈ (sha256hex (preHash b₁ u₁)).data, c ∈ SHA256.hexDigits) ∧
    preHash b₁ u₁ ≠ preHash b₂ u₂ := by
  refine ⟨rfl, (sha256hex_shape _).1, (sha256hex_shape _).2, ?_⟩
  intro h
  have hd : (preHash b₁ u₁).data = (preHash b₂ u₂).data := by rw [h]
  rw [preHash_data, preHash_data] at hd
  obtain ⟨hb, hu⟩ := colon_append_inj _ _ _ _ (validUsername_no_colon u₁ h₁)
    (validUsername_no_colon u₂ h₂) hd
  rcases hne with hne | hne
  · exact hne (String.ext hb)
  · exact hne (String.ext hu)

/-- Witness for C6 at two concrete validated pairs sharing a username,
including a baseURL that itself contains colons. -/
theorem c6_generateSessionKey_spec_witness :
    validUsername "admin" = true ∧ validUsername "user.01@host" = true ∧
    ("https://a.example:2053" ≠ "https://b.example" ∨ "admin" ≠ "user.01@host") ∧
    preHash "https://a.example:2053" "admin" ≠ preHash "https://b.example" "user.01@host" := by
  have h := c6_generateSessionKey_spec "https://a.example:2053" "admin"
    "https://b.example" "user.01@host" (by decide) (by decide)
    (Or.inl (by decide))
  exact ⟨by decide, by decide, Or.inl (by decide), h.2.2.2⟩

/-! ## C7 — checkRateLimit -/

theorem logLookup_set_self (log : RateLog) (key : String) (ts : List Nat) :
    logLookup (logSet log key ts) key = ts := by
  simp [logSet, logLookup]

theorem logSuspiciousActivity_getLast (st : MonitorState) (ty : String) :
    (logSuspiciousActivity st ty).activities.getLast? = some ⟨ty⟩ := by
  show (if (st.activities ++ [(⟨ty⟩ : Activity)]).length > 200
      then (st.activities ++ [(⟨ty⟩ : Activity)]).tail
      else st.activities ++ [(⟨ty⟩ : Activity)]).getLast? = some ⟨ty⟩
  by_cases h : (st.activities ++ [(⟨ty⟩ : Activity)]).length > 200
  · rw [if_pos h]
    cases hA : st.activities with
    | nil => rw [hA] at h; simp at h
    | cons x xs =>
      simp only [List.cons_append, List.tail_cons]
      exact List.getLast?_concat _
  · rw [if_neg h]
    exact List.getLast?_concat _

theorem logSuspiciousActivity_loginLog (st : MonitorState) (ty : String) :
    (logSuspiciousActivity st ty).loginLog = st.loginLog := rfl

theorem logSuspiciousActivity_requestLog (st : MonitorState) (ty : String) :
    (logSuspiciousActivity st ty).requestLog = st.requestLog := rfl

theorem pruned_filter_self (arr : List Nat) (now windowMs : Nat) :
    ((arr.filter (fun ts => decide (now - ts ≤ windowMs))) ++ [now]).filter
        (fun ts => decide (now - ts ≤ windowMs)) =
      arr.filter (fun ts => decide (now - ts ≤ windowMs)) ++ [now] := by
  apply List.filter_eq_self.mpr
  intro a ha
  rcases List.mem_append.mp ha with ha | ha
  · exact (List.mem_filter.mp ha).2
  · simp only [List.mem_singleton] at ha
    subst ha
    simp

/-- The `type = 'login'` branch of `checkRateLimit`, characterized: the
identifier's ledger after the call is its pruned ledger plus `now`; the
call's verdict is `count ≤ maxLoginAttemptsPerHour`; refusal appends a
`rate_limit_exceeded` activity, acceptance leaves activities alone. -/
theorem checkRateLimit_login_spec (cfg : MonitorConfig) (st : MonitorState)
    (now : Nat) (id : String) :
    logLookup (checkRateLimit cfg st now id "login").2.loginLog id =
      (logLookup st.loginLog id).filter (fun ts => decide (now - ts ≤ 3600000))
        ++ [now] ∧
    ((checkRateLimit cfg st now id "login").1 = true ↔
      ((logLookup st.loginLog id).filter
        (fun ts => decide (now - ts ≤ 3600000))).length + 1 ≤
        cfg.maxLoginAttemptsPerHour) ∧
    ((checkRateLimit cfg st now id "login").1 = false →
      (checkRateLimit cfg st now id "login").2.activities.getLast? =
        some ⟨"rate_limit_exceeded"⟩) ∧
    ((checkRateLimit cfg st now id "login").1 = true →
      (checkRateLimit cfg st now id "login").2.activities = st.activities) := by
  have heq : checkRateLimit cfg st now id "login" =
      (decide ((((logLookup st.loginLog id).filter
          (fun ts => decide (now - ts ≤ 3600000))) ++ [now]).length ≤
            cfg.maxLoginAttemptsPerHour),
        if (((logLookup st.loginLog id).filter
            (fun ts => decide (now - ts ≤ 3600000))) ++ [now]).length ≤
              cfg.maxLoginAttemptsPerHour then
          { st with loginLog := pruneLog (logSet st.loginLog id
              (((logLookup st.loginLog id).filter
                (fun ts => decide (now - ts ≤ 3600000))) ++ [now])) now 3600000 }
        else logSuspiciousActivity
          { st with loginLog := pruneLog (logSet st.loginLog id
              (((logLookup st.loginLog id).filter
                (fun ts => decide (now - ts ≤ 3600000))) ++ [now])) now 3600000 }
          "rate_limit_exceeded") := rfl
  have hlook : logLookup (pruneLog (logSet st.loginLog id
      ((logLookup st.loginLog id).filter (fun ts => decide (now - ts ≤ 3600000))
        ++ [now])) now 3600000) id =
      (logLookup st.loginLog id).filter (fun ts => decide (now - ts ≤ 3600000))
        ++ [now] := by
    simp only [pruneLog, logSet, List.filterMap_cons,
      pruned_filter_self (logLookup st.loginLog id) now 3600000]
    have hne : ((logLookup st.loginLog id).filter
        (fun ts => decide (now - ts ≤ 3600000)) ++ [now]).isEmpty = false := by
      simp
    simp only [hne, Bool.false_eq_true, ite_false, logLookup, eq_self_iff_true,
      if_true]
  by_cases hall : ((logLookup st.loginLog id).filter
      (fun ts => decide (now - ts ≤ 3600000)) ++ [now]).length ≤
        cfg.maxLoginAttemptsPerHour
  · refine ⟨?_, ?_, ?_, ?_⟩
    · rw [heq, if_pos hall]
      exact hlook
    · rw [heq]
      show decide _ = true ↔ _
      rw [decide_eq_true_eq]
      simp only [List.length_append, List.length_singleton]
    · intro h
      rw [heq] at h
      exact absurd hall (of_decide_eq_false h)
    · intro _
      rw [heq, if_pos hall]
  · refine ⟨?_, ?_, ?_, ?_⟩
    · rw [heq, if_neg hall, logSuspiciousActivity_loginLog]
      exact hlook
    · rw [heq]
      show decide _ = true ↔ _
      rw [decide_eq_true_eq]
      simp only [List.length_append, List.length_singleton]
    · intro _
      rw [heq, if_neg hall]
      exact logSuspiciousActivity_getLast _ _
    · intro h
      rw [heq] at h
      exact absurd (of_decide_eq_true h) hall
/-- The general branch of `checkRateLimit` (any `type ≠ 'login'`):
window 60 s, `requestLog` ledger, `maxRequestsPerMinute` cap. -/
theorem checkRateLimit_general_spec (cfg : MonitorConfig) (st : MonitorState)
    (now : Nat) (id ty : String) (hty : ty ≠ "login") :
    logLookup (checkRateLimit cfg st now id ty).2.requestLog id =
      (logLookup st.requestLog id).filter (fun ts => decide (now - ts ≤ 60000))
        ++ [now] ∧
    ((checkRateLimit cfg st now id ty).1 = true ↔
      ((logLookup st.requestLog id).filter
        (fun ts => decide (now - ts ≤ 60000))).length + 1 ≤
        cfg.maxRequestsPerMinute) ∧
    ((checkRateLimit cfg st now id ty).1 = false →
      (checkRateLimit cfg st now id ty).2.activities.getLast? =
        some ⟨"rate_limit_exceeded"⟩) := by
  have heq : checkRateLimit cfg st now id ty =
      (decide ((((logLookup st.requestLog id).filter
          (fun ts => decide (now - ts ≤ 60000))) ++ [now]).length ≤
            cfg.maxRequestsPerMinute),
        if (((logLookup st.requestLog id).filter
            (fun ts => decide (now - ts ≤ 60000))) ++ [now]).length ≤
              cfg.maxRequestsPerMinute then
          { st with requestLog := pruneLog (logSet st.requestLog id
              (((logLookup st.requestLog id).filter
                (fun ts => decide (now - ts ≤ 60000))) ++ [now])) now 60000 }
        else logSuspiciousActivity
          { st with requestLog := pruneLog (logSet st.requestLog id
              (((logLookup st.requestLog id).filter
                (fun ts => decide (now - ts ≤ 60000))) ++ [now])) now 60000 }
          "rate_limit_exceeded") := by
    unfold checkRateLimit
    rw [if_neg hty]
  have hlook : logLookup (pruneLog (logSet st.requestLog id
      ((logLookup st.requestLog id).filter (fun ts => decide (now - ts ≤ 60000))
        ++ [now])) now 60000) id =
      (logLookup st.requestLog id).filter (fun ts => decide (now - ts ≤ 60000))
        ++ [now] := by
    simp only [pruneLog, logSet, List.filterMap_cons,
      pruned_filter_self (logLookup st.requestLog id) now 60000]
    have hne : ((logLookup st.requestLog id).filter
        (fun ts => decide (now - ts ≤ 60000)) ++ [now]).isEmpty = false := by
      simp
    simp only [hne, Bool.false_eq_true, ite_false, logLookup, eq_self_iff_true,
      if_true]
  by_cases hall : ((logLookup st.requestLog id).filter
      (fun ts => decide (now - ts ≤ 60000)) ++ [now]).length ≤
        cfg.maxRequestsPerMinute
  · refine ⟨?_, ?_, ?_⟩
    · rw [heq, if_pos hall]
      exact hlook
    · rw [heq]
      show decide _ = true ↔ _
      rw [decide_eq_true_eq]
      simp only [List.length_append, List.length_singleton]
    · intro h
      rw [heq] at h
      exact absurd hall (of_decide_eq_false h)
  · refine ⟨?_, ?_, ?_⟩
    · rw [heq, if_neg hall, logSuspiciousActivity_requestLog]
      exact hlook
    · rw [heq]
      show decide _ = true ↔ _
      rw [decide_eq_true_eq]
      simp only [List.length_append, List.length_singleton]
    · intro _
      rw [heq, if_neg hall]
      exact logSuspiciousActivity_getLast _ _

/-- **C7**: `checkRateLimit` prunes the identifier's ledger of entries older
than the window (60 s general, 3600 s login), appends the current
timestamp, and allows iff the resulting count is within the configured
maximum (login: `maxLoginAttemptsPerHour`, general:
`maxRequestsPerMinute`); a refusal also appends a `rate_limit_exceeded`
suspicious-activity record.  With `maxLoginAttemptsPerHour = 3`, the 4th
login check within one rolling hour for the same identifier is refused and
logs that record (the first three are allowed). -/
theorem c7_checkRateLimit_spec (cfg : MonitorConfig) (st : MonitorState)
    (now : Nat) (id ty : String) (hty : ty ≠ "login")
    (t₁ t₂ t₃ t₄ : Nat) (h12 : t₁ ≤ t₂) (h23 : t₂ ≤ t₃) (h34 : t₃ ≤ t₄)
    (hwin : t₄ - t₁ ≤ 3600000) :
    (logLookup (checkRateLimit cfg st now id "login").2.loginLog id =
      (logLookup st.loginLog id).filter (fun ts => decide (now - ts ≤ 3600000))
        ++ [now]) ∧
    ((checkRateLimit cfg st now id "login").1 = true ↔
      ((logLookup st.loginLog id).filter
        (fun ts => decide (now - ts ≤ 3600000))).length + 1 ≤
        cfg.maxLoginAttemptsPerHour) ∧
    ((checkRateLimit cfg st now id "login").1 = false →
      (checkRateLimit cfg st now id "login").2.activities.getLast? =
        some ⟨"rate_limit_exceeded"⟩) ∧
    (logLookup (checkRateLimit cfg st now id ty).2.requestLog id =
      (logLookup st.requestLog id).filter (fun ts => decide (now - ts ≤ 60000))
        ++ [now]) ∧
    ((checkRateLimit cfg st now id ty).1 = true ↔
      ((logLookup st.requestLog id).filter
        (fun ts => decide (now - ts ≤ 60000))).length + 1 ≤
        cfg.maxRequestsPerMinute) ∧
    ((checkRateLimit cfg st now id ty).1 = false →
      (checkRateLimit cfg st now id ty).2.activities.getLast? =
        some ⟨"rate_limit_exceeded"⟩) ∧
    (checkRateLimit ⟨60, 3⟩ MonitorState.empty t₁ id "login").1 = true ∧
    (checkRateLimit ⟨60, 3⟩
      (checkRateLimit ⟨60, 3⟩ MonitorState.empty t₁ id "login").2
        t₂ id "login").1 = true ∧
    (checkRateLimit ⟨60, 3⟩ (checkRateLimit ⟨60, 3⟩
      (checkRateLimit ⟨60, 3⟩ MonitorState.empty t₁ id "login").2
        t₂ id "login").2 t₃ id "login").1 = true ∧
    (checkRateLimit ⟨60, 3⟩ (checkRateLimit ⟨60, 3⟩ (checkRateLimit ⟨60, 3⟩
      (checkRateLimit ⟨60, 3⟩ MonitorState.empty t₁ id "login").2
        t₂ id "login").2 t₃ id "login").2 t₄ id "login").1 = false ∧
    (checkRateLimit ⟨60, 3⟩ (checkRateLimit ⟨60, 3⟩ (checkRateLimit ⟨60, 3⟩
      (checkRateLimit ⟨60, 3⟩ MonitorState.empty t₁ id "login").2
        t₂ id "login").2 t₃ id "login").2 t₄ id "login").2.activities.getLast? =
      some ⟨"rate_limit_exceeded"⟩ := by
  obtain ⟨hg1, hg2, hg3, _⟩ := checkRateLimit_login_spec cfg st now id
  obtain ⟨hr1, hr2, hr3⟩ := checkRateLimit_general_spec cfg st now id ty hty
  obtain ⟨s1a, s1b, _, _⟩ :=
    checkRateLimit_login_spec ⟨60, 3⟩ MonitorState.empty t₁ id
  have e0 : logLookup MonitorState.empty.loginLog id = [] := rfl
  rw [e0, List.filter_nil] at s1a s1b
  have c1t : (checkRateLimit ⟨60, 3⟩ MonitorState.empty t₁ id "login").1 =
      true := s1b.mpr (by decide)
  obtain ⟨s2a, s2b, _, _⟩ := checkRateLimit_login_spec ⟨60, 3⟩
    (checkRateLimit ⟨60, 3⟩ MonitorState.empty t₁ id "login").2 t₂ id
  rw [s1a] at s2a s2b
  have hf2 : ([t₁] : List Nat).filter (fun ts => decide (t₂ - ts ≤ 3600000)) =
      [t₁] := by
    have h : t₂ ≤ 3600000 + t₁ := by omega
    simp [List.filter_cons, h]
  rw [List.nil_append] at s2a s2b
  rw [hf2] at s2a s2b
  have c2t : (checkRateLimit ⟨60, 3⟩
      (checkRateLimit ⟨60, 3⟩ MonitorState.empty t₁ id "login").2
        t₂ id "login").1 = true := s2b.mpr (by simp)
  obtain ⟨s3a, s3b, _, _⟩ := checkRateLimit_login_spec ⟨60, 3⟩
    (checkRateLimit ⟨60, 3⟩ (checkRateLimit ⟨60, 3⟩ MonitorState.empty t₁ id
      "login").2 t₂ id "login").2 t₃ id
  rw [s2a] at s3a s3b
  have hf3 : ([t₁, t₂] : List Nat).filter
      (fun ts => decide (t₃ - ts ≤ 3600000)) = [t₁, t₂] := by
    have h1 : t₃ ≤ 3600000 + t₁ := by omega
    have h2 : t₃ ≤ 3600000 + t₂ := by omega
    simp [List.filter_cons, h1, h2]
  simp only [List.cons_append, List.nil_append] at s3a s3b
  rw [hf3] at s3a s3b
  have c3t : (checkRateLimit ⟨60, 3⟩ (checkRateLimit ⟨60, 3⟩
      (checkRateLimit ⟨60, 3⟩ MonitorState.empty t₁ id "login").2
        t₂ id "login").2 t₃ id "login").1 = true := s3b.mpr (by simp)
  obtain ⟨s4a, s4b, s4c, _⟩ := checkRateLimit_login_spec ⟨60, 3⟩
    (checkRateLimit ⟨60, 3⟩ (checkRateLimit ⟨60, 3⟩ (checkRateLimit ⟨60, 3⟩
      MonitorState.empty t₁ id "login").2 t₂ id "login").2 t₃ id "login").2
    t₄ id
  rw [s3a] at s4b
  have hf4 : ([t₁, t₂, t₃] : List Nat).filter
      (fun ts => decide (t₄ - ts ≤ 3600000)) = [t₁, t₂, t₃] := by
    have h1 : t₄ ≤ 3600000 + t₁ := by omega
    have h2 : t₄ ≤ 3600000 + t₂ := by omega
    have h3 : t₄ ≤ 3600000 + t₃ := by omega
    simp [List.filter_cons, h1, h2, h3]
  simp only [List.cons_append, List.nil_append] at s4b
  rw [hf4] at s4b
  have c4f : (checkRateLimit ⟨60, 3⟩ (checkRateLimit ⟨60, 3⟩
      (checkRateLimit ⟨60, 3⟩ (checkRateLimit ⟨60, 3⟩ MonitorState.empty t₁ id
        "login").2 t₂ id "login").2 t₃ id "login").2 t₄ id "login").1 =
      false := by
    apply eq_false_of_ne_true
    intro h
    have h4 := s4b.mp h
    simp at h4
  exact ⟨hg1, hg2, hg3, hr1, hr2, hr3, c1t, c2t, c3t, c4f, s4c c4f⟩

/-- Witness for C7: identifier `"u"`, general kind `"api"`, login checks at
0 ms, 10 s, 20 s, 30 s — the 4th is refused under a 3-per-hour cap. -/
theorem c7_checkRateLimit_spec_witness :
    ("api" : String) ≠ "login" ∧
    (checkRateLimit ⟨60, 3⟩ (checkRateLimit ⟨60, 3⟩ (checkRateLimit ⟨60, 3⟩
      (checkRateLimit ⟨60, 3⟩ MonitorState.empty 0 "u" "login").2
        10000 "u" "login").2 20000 "u" "login").2 30000 "u" "login").1 = false ∧
    (checkRateLimit ⟨60, 3⟩ (checkRateLimit ⟨60, 3⟩ (checkRateLimit ⟨60, 3⟩
      (checkRateLimit ⟨60, 3⟩ MonitorState.empty 0 "u" "login").2
        10000 "u" "login").2 20000 "u" "login").2
        30000 "u" "login").2.activities.getLast? =
      some ⟨"rate_limit_exceeded"⟩ := by
  have h := c7_checkRateLimit_spec {} MonitorState.empty 0 "u" "api"
    (by decide) 0 10000 20000 30000 (by omega) (by omega) (by omega) (by omega)
  exact ⟨by decide, h.2.2.2.2.2.2.2.2.2.1, h.2.2.2.2.2.2.2.2.2.2⟩

/-! ## C8 — generatePassword -/

/-- **C8**: with a non-empty character pool, `generatePassword` returns a
password of exactly `length` characters (one per random byte), each drawn
from the pool; every pool character belongs to one of the selected classes;
with `excludeSimilar` none of `0,O,1,l,I` is in the pool; and with an empty
pool it fails with the source's error message. -/
theorem c8_generatePassword_spec (len : Nat) (o : PasswordOptions)
    (rand : List Nat) (hlen : rand.length = len) :
    (passwordChars o ≠ [] →
      ∃ pw, generatePassword len o rand = .ok pw ∧ pw.length = len ∧
        ∀ c ∈ pw.data, c ∈ passwordChars o) ∧
    (passwordChars o = [] →
      generatePassword len o rand =
        .error "No character sets selected for password generation") ∧
    (∀ c ∈ passwordChars o,
      (o.includeUppercase = true ∧ c ∈ uppercaseChars) ∨
      (o.includeLowercase = true ∧ c ∈ lowercaseChars) ∨
      (o.includeNumbers = true ∧ c ∈ numberChars) ∨
      (o.includeSymbols = true ∧ c ∈ symbolChars)) ∧
    (o.excludeSimilar = true → ∀ c ∈ passwordChars o, c ∉ similarChars) := by
  refine ⟨?_, ?_, ?_, ?_⟩
  · intro hne
    have hpos : 0 < (passwordChars o).length := List.length_pos.mpr hne
    have hnz : ¬ (passwordChars o).length = 0 := by omega
    refine ⟨String.mk ((rand.take len).map
      (fun byte => (passwordChars o).getD (byte % (passwordChars o).length) 'A')),
      ?_, ?_, ?_⟩
    · simp only [generatePassword, hnz, ite_false]
    · show ((rand.take len).map _).length = len
      rw [List.length_map, List.length_take, hlen, Nat.min_self]
    · intro c hc
      obtain ⟨b, _, hb⟩ := List.mem_map.mp hc
      have hlt : b % (passwordChars o).length < (passwordChars o).length :=
        Nat.mod_lt _ hpos
      rw [← hb, List.getD_eq_getElem (passwordChars o) 'A' hlt]
      exact List.getElem_mem hlt
  · intro hnil
    have : (passwordChars o).length = 0 := by rw [hnil]; rfl
    simp only [generatePassword, this, ite_true]
  · intro c hc
    have hmem : ∀ (b : Bool) (l : List Char), c ∈ (if b = true then l else []) →
        b = true ∧ c ∈ l := by
      intro b l h
      cases b
      · simp at h
      · exact ⟨rfl, by simpa using h⟩
    have hcs : c ∈
        (if o.includeUppercase = true then uppercaseChars else []) ++
        (if o.includeLowercase = true then lowercaseChars else []) ++
        (if o.includeNumbers = true then numberChars else []) ++
        (if o.includeSymbols = true then symbolChars else []) := by
      unfold passwordChars at hc
      cases hex : o.excludeSimilar
      · rw [hex] at hc
        simpa using hc
      · rw [hex] at hc
        simp only [ite_true] at hc
        exact (List.mem_filter.mp hc).1
    rcases List.mem_append.mp hcs with h3 | h4
    · rcases List.mem_append.mp h3 with h2 | h3'
      · rcases List.mem_append.mp h2 with h1 | h2'
        · exact Or.inl (hmem _ _ h1)
        · exact Or.inr (Or.inl (hmem _ _ h2'))
      · exact Or.inr (Or.inr (Or.inl (hmem _ _ h3')))
    · exact Or.inr (Or.inr (Or.inr (hmem _ _ h4)))
  · intro hex c hc
    unfold passwordChars at hc
    rw [hex] at hc
    simp only [ite_true] at hc
    exact of_decide_eq_true (List.mem_filter.mp hc).2

/-- Witness for C8: the spec's highlighted configuration — defaults
(`includeSymbols = false`, `excludeSimilar = true`), length 16 — on sixteen
concrete random bytes. -/
theorem c8_generatePassword_spec_witness :
    ([12, 200, 33, 47, 250, 3, 91, 147, 16, 88, 61, 254, 7, 120, 199, 42] :
        List Nat).length = 16 ∧
    passwordChars {} ≠ [] ∧
    (∃ pw, generatePassword 16 {}
        [12, 200, 33, 47, 250, 3, 91, 147, 16, 88, 61, 254, 7, 120, 199, 42] =
          .ok pw ∧
      pw.length = 16 ∧ ∀ c ∈ pw.data, c ∈ passwordChars {}) ∧
    (∀ c ∈ passwordChars {}, c ∉ similarChars) := by
  have h := c8_generatePassword_spec 16 {}
    [12, 200, 33, 47, 250, 3, 91, 147, 16, 88, 61, 254, 7, 120, 199, 42]
    (by decide)
  exact ⟨by decide, by decide, h.1 (by decide), h.2.2.2 rfl⟩

/-! ## Client-core unfolding lemmas -/

theorem msGet_of_lookup_none {α : Type} (s : Store α) (now : Nat) (key : String)
    (h : storeLookup s key = none) : msGet s now key = (none, s) := by
  simp [msGet, h]

/-- `login(false)` with the rate limiter passing and a cached record that
has a cookie: restore from cache, reset the counter, no network. -/
theorem login_spec_cacheHit (cfg : ClientConfig) (st : ClientState) (now : Nat)
    (loginNet : Nat → LoginNet) (s : SessionData) (store' : Store SessionData)
    (c : String)
    (hallow : (checkRateLimit cfg.monCfg st.monitor now
      (hashForLogging st.username) "login").1 = true)
    (hget : getSession st.store now st.baseURL st.username = (some s, store'))
    (hcookie : s.cookie = some c) :
    login cfg st now loginNet false = (.ok ⟨true⟩,
      { st with
          monitor := (checkRateLimit cfg.monCfg st.monitor now
            (hashForLogging st.username) "login").2
          store := store'
          cookie := some c
          loginRetryCount := 0 }) := by
  rcases hcr : checkRateLimit cfg.monCfg st.monitor now
    (hashForLogging st.username) "login" with ⟨allowed, mon'⟩
  rw [hcr] at hallow
  simp only at hallow
  subst hallow
  simp only [login, hcr, if_true, Bool.false_eq_true, ite_false, hget, hcookie]

/-- `login(false)` with the rate limiter passing and no cached record:
falls through to the network login. -/
theorem login_spec_cacheMiss (cfg : ClientConfig) (st : ClientState) (now : Nat)
    (loginNet : Nat → LoginNet) (store' : Store SessionData)
    (hallow : (checkRateLimit cfg.monCfg st.monitor now
      (hashForLogging st.username) "login").1 = true)
    (hget : getSession st.store now st.baseURL st.username = (none, store')) :
    login cfg st now loginNet false = loginNetwork cfg
      { st with
          monitor := (checkRateLimit cfg.monCfg st.monitor now
            (hashForLogging st.username) "login").2
          loginRetryCount := st.loginRetryCount + 1
          store := store' } now loginNet := by
  rcases hcr : checkRateLimit cfg.monCfg st.monitor now
    (hashForLogging st.username) "login" with ⟨allowed, mon'⟩
  rw [hcr] at hallow
  simp only at hallow
  subst hallow
  simp only [login, hcr, if_true, Bool.false_eq_true, ite_false, hget]

/-- `login(true)` with the rate limiter passing: skips the cache check and
goes straight to the network login. -/
theorem login_spec_force (cfg : ClientConfig) (st : ClientState) (now : Nat)
    (loginNet : Nat → LoginNet)
    (hallow : (checkRateLimit cfg.monCfg st.monitor now
      (hashForLogging st.username) "login").1 = true) :
    login cfg st now loginNet true = loginNetwork cfg
      { st with
          monitor := (checkRateLimit cfg.monCfg st.monitor now
            (hashForLogging st.username) "login").2
          loginRetryCount := st.loginRetryCount + 1 } now loginNet := by
  rcases hcr : checkRateLimit cfg.monCfg st.monitor now
    (hashForLogging st.username) "login" with ⟨allowed, mon'⟩
  rw [hcr] at hallow
  simp only at hallow
  subst hallow
  simp only [login, hcr, if_true, ite_true]

/-- `login` with the rate limiter refusing: fails fast, no network call. -/
theorem login_spec_rateLimited (cfg : ClientConfig) (st : ClientState)
    (now : Nat) (loginNet : Nat → LoginNet) (force : Bool)
    (hdeny : (checkRateLimit cfg.monCfg st.monitor now
      (hashForLogging st.username) "login").1 = false) :
    login cfg st now loginNet force =
      (.error ⟨none, "Rate limit exceeded for login attempts"⟩,
        { st with monitor := (checkRateLimit cfg.monCfg st.monitor now
            (hashForLogging st.username) "login").2 }) := by
  rcases hcr : checkRateLimit cfg.monCfg st.monitor now
    (hashForLogging st.username) "login" with ⟨allowed, mon'⟩
  rw [hcr] at hdeny
  simp only at hdeny
  subst hdeny
  simp only [login, hcr, Bool.false_eq_true, ite_false]

/-- The network login resolving successfully with a cookie. -/
theorem loginNetwork_success (cfg : ClientConfig) (st : ClientState)
    (now : Nat) (loginNet : Nat → LoginNet) (c : String)
    (hnet : loginNet st.netLoginCalls = .success c) :
    loginNetwork cfg st now loginNet = (.ok ⟨false⟩,
      { st with
          netLoginCalls := st.netLoginCalls + 1
          cookie := some c
          store := storeSession cfg.smCfg st.store now st.baseURL st.username
            ⟨some c, none⟩
          loginRetryCount := 0 }) := by
  simp only [loginNetwork, hnet]

/-- The network login failing (`data.success` false): the retry counter
stays incremented, and with the counter at or past the maximum a
`multiple_failed_logins` activity is recorded before the error propagates. -/
theorem loginNetwork_failure (cfg : ClientConfig) (st : ClientState)
    (now : Nat) (loginNet : Nat → LoginNet) (m : String)
    (hnet : loginNet st.netLoginCalls = .failure m) :
    loginNetwork cfg st now loginNet =
      (.error ⟨none, "Login failed: " ++ m⟩,
        if cfg.maxLoginRetries ≤ st.loginRetryCount then
          { st with
              netLoginCalls := st.netLoginCalls + 1
              monitor := logSuspiciousActivity st.monitor "multiple_failed_logins" }
        else { st with netLoginCalls := st.netLoginCalls + 1 }) := by
  simp only [loginNetwork, hnet, loginCatch, ge_iff_le]

/-! ## C2 — login cache idempotence -/

/-- **C2**: with the login rate limiter passing, (a) `login(false)` with a
cached, non-stale session restores it (`fromCache: true`) with zero network
calls; (b) from a cold cache, two successive `login(false)` calls perform
exactly one network login in total, the second served from cache; (c) two
successive `login(true)` calls always perform two network logins. -/
theorem c2_login_idempotence_spec (cfg : ClientConfig) (st : ClientState)
    (now : Nat) (loginNet : Nat → LoginNet) (s : SessionData) (c : String)
    (cks : Nat → String)
    (hrate : st.monitor.loginLog = [])
    (hmax : 2 ≤ cfg.monCfg.maxLoginAttemptsPerHour)
    (httl : 0 < cfg.smCfg.sessionTTL)
    (hnet : ∀ k, loginNet k = .success (cks k)) :
    (getSession st.store now st.baseURL st.username = (some s, st.store) →
      s.cookie = some c →
      shouldRefreshSession cfg.smCfg now s = false →
      (login cfg st now loginNet false).1 = .ok ⟨true⟩ ∧
      (login cfg st now loginNet false).2.netLoginCalls = st.netLoginCalls) ∧
    (storeLookup st.store (generateSessionKey st.baseURL st.username) = none →
      (login cfg st now loginNet false).1 = .ok ⟨false⟩ ∧
      (login cfg (login cfg st now loginNet false).2 now loginNet false).1 =
        .ok ⟨true⟩ ∧
      (login cfg (login cfg st now loginNet false).2 now loginNet
        false).2.netLoginCalls = st.netLoginCalls + 1) ∧
    ((login cfg st now loginNet true).1 = .ok ⟨false⟩ ∧
      (login cfg (login cfg st now loginNet true).2 now loginNet true).1 =
        .ok ⟨false⟩ ∧
      (login cfg (login cfg st now loginNet true).2 now loginNet
        true).2.netLoginCalls = st.netLoginCalls + 2) := by
  have hlk0 : logLookup st.monitor.loginLog (hashForLogging st.username) = [] := by
    rw [hrate]; rfl
  have hallow1 : (checkRateLimit cfg.monCfg st.monitor now
      (hashForLogging st.username) "login").1 = true := by
    apply (checkRateLimit_login_spec cfg.monCfg st.monitor now _).2.1.mpr
    rw [hlk0, List.filter_nil]
    simpa using by omega
  have hledger1 : logLookup (checkRateLimit cfg.monCfg st.monitor now
      (hashForLogging st.username) "login").2.loginLog
      (hashForLogging st.username) = [now] := by
    have h := (checkRateLimit_login_spec cfg.monCfg st.monitor now
      (hashForLogging st.username)).1
    rw [hlk0, List.filter_nil, List.nil_append] at h
    exact h
  have hallow2 : ∀ mon2 : MonitorState,
      logLookup mon2.loginLog (hashForLogging st.username) = [now] →
      (checkRateLimit cfg.monCfg mon2 now
        (hashForLogging st.username) "login").1 = true := by
    intro mon2 hm
    apply (checkRateLimit_login_spec cfg.monCfg mon2 now _).2.1.mpr
    rw [hm]
    have : ([now] : List Nat).filter
        (fun ts => decide (now - ts ≤ 3600000)) = [now] := by simp
    rw [this]
    simpa using by omega
  have hget2 : getSession
      (storeSession cfg.smCfg st.store now st.baseURL st.username
        ⟨some (cks st.netLoginCalls), none⟩) now st.baseURL st.username =
      (some ⟨some (cks st.netLoginCalls), some now⟩,
        storeSession cfg.smCfg st.store now st.baseURL st.username
          ⟨some (cks st.netLoginCalls), none⟩) := by
    show msGet _ now _ = _
    rw [storeSession, msGet, storeLookup_set_self]
    have h1 : cfg.smCfg.sessionTTL > 0 := httl
    have h2 : ¬ (now + cfg.smCfg.sessionTTL * 1000 ≤ now) := by omega
    simp only [h1, if_pos, ite_true, h2, ite_false]
  refine ⟨?_, ?_, ?_⟩
  · intro hget hcookie _
    have e1 : login cfg st now loginNet false = (.ok ⟨true⟩,
        { st with
            monitor := (checkRateLimit cfg.monCfg st.monitor now
              (hashForLogging st.username) "login").2
            cookie := some c
            loginRetryCount := 0 }) :=
      login_spec_cacheHit cfg st now loginNet s st.store c hallow1 hget hcookie
    rw [e1]
    exact ⟨rfl, rfl⟩
  · intro hmiss
    have hget : getSession st.store now st.baseURL st.username =
        (none, st.store) := msGet_of_lookup_none st.store now _ hmiss
    have e1 : login cfg st now loginNet false = (.ok ⟨false⟩,
        { st with
            monitor := (checkRateLimit cfg.monCfg st.monitor now
              (hashForLogging st.username) "login").2
            loginRetryCount := 0
            cookie := some (cks st.netLoginCalls)
            store := storeSession cfg.smCfg st.store now st.baseURL st.username
              ⟨some (cks st.netLoginCalls), none⟩
            netLoginCalls := st.netLoginCalls + 1 }) := by
      rw [login_spec_cacheMiss cfg st now loginNet st.store hallow1 hget]
      exact loginNetwork_success cfg _ now loginNet (cks st.netLoginCalls)
        (hnet st.netLoginCalls)
    have p1 : (login cfg st now loginNet false).2 =
        { st with
            monitor := (checkRateLimit cfg.monCfg st.monitor now
              (hashForLogging st.username) "login").2
            loginRetryCount := 0
            cookie := some (cks st.netLoginCalls)
            store := storeSession cfg.smCfg st.store now st.baseURL st.username
              ⟨some (cks st.netLoginCalls), none⟩
            netLoginCalls := st.netLoginCalls + 1 } := by rw [e1]
    have e2 : login cfg
        { st with
            monitor := (checkRateLimit cfg.monCfg st.monitor now
              (hashForLogging st.username) "login").2
            loginRetryCount := 0
            cookie := some (cks st.netLoginCalls)
            store := storeSession cfg.smCfg st.store now st.baseURL st.username
              ⟨some (cks st.netLoginCalls), none⟩
            netLoginCalls := st.netLoginCalls + 1 } now loginNet false =
        (.ok ⟨true⟩,
        { st with
            monitor := (checkRateLimit cfg.monCfg
              (checkRateLimit cfg.monCfg st.monitor now
                (hashForLogging st.username) "login").2 now
              (hashForLogging st.username) "login").2
            loginRetryCount := 0
            cookie := some (cks st.netLoginCalls)
            store := storeSession cfg.smCfg st.store now st.baseURL st.username
              ⟨some (cks st.netLoginCalls), none⟩
            netLoginCalls := st.netLoginCalls + 1 }) :=
      login_spec_cacheHit cfg _ now loginNet
        ⟨some (cks st.netLoginCalls), some now⟩
        (storeSession cfg.smCfg st.store now st.baseURL st.username
          ⟨some (cks st.netLoginCalls), none⟩)
        (cks st.netLoginCalls)
        (hallow2 (checkRateLimit cfg.monCfg st.monitor now
          (hashForLogging st.username) "login").2 hledger1)
        hget2 rfl
    refine ⟨?_, ?_, ?_⟩
    · rw [e1]
    · rw [p1, e2]
    · rw [p1, e2]
  · have e1 : login cfg st now loginNet true = (.ok ⟨false⟩,
        { st with
            monitor := (checkRateLimit cfg.monCfg st.monitor now
              (hashForLogging st.username) "login").2
            loginRetryCount := 0
            cookie := some (cks st.netLoginCalls)
            store := storeSession cfg.smCfg st.store now st.baseURL st.username
              ⟨some (cks st.netLoginCalls), none⟩
            netLoginCalls := st.netLoginCalls + 1 }) := by
      rw [login_spec_force cfg st now loginNet hallow1]
      exact loginNetwork_success cfg _ now loginNet (cks st.netLoginCalls)
        (hnet st.netLoginCalls)
    have p1 : (login cfg st now loginNet true).2 =
        { st with
            monitor := (checkRateLimit cfg.monCfg st.monitor now
              (hashForLogging st.username) "login").2
            loginRetryCount := 0
            cookie := some (cks st.netLoginCalls)
            store := storeSession cfg.smCfg st.store now st.baseURL st.username
              ⟨some (cks st.netLoginCalls), none⟩
            netLoginCalls := st.netLoginCalls + 1 } := by rw [e1]
    have e2 : login cfg
        { st with
            monitor := (checkRateLimit cfg.monCfg st.monitor now
              (hashForLogging st.username) "login").2
            loginRetryCount := 0
            cookie := some (cks st.netLoginCalls)
            store := storeSession cfg.smCfg st.store now st.baseURL st.username
              ⟨some (cks st.netLoginCalls), none⟩
            netLoginCalls := st.netLoginCalls + 1 } now loginNet true =
        (.ok ⟨false⟩,
        { st with
            monitor := (checkRateLimit cfg.monCfg
              (checkRateLimit cfg.monCfg st.monitor now
                (hashForLogging st.username) "login").2 now
              (hashForLogging st.username) "login").2
            loginRetryCount := 0
            cookie := some (cks (st.netLoginCalls + 1))
            store := storeSession cfg.smCfg (storeSession cfg.smCfg st.store now
              st.baseURL st.username ⟨some (cks st.netLoginCalls), none⟩) now
              st.baseURL st.username ⟨some (cks (st.netLoginCalls + 1)), none⟩
            netLoginCalls := st.netLoginCalls + 2 }) := by
      rw [login_spec_force cfg
        { st with
            monitor := (checkRateLimit cfg.monCfg st.monitor now
              (hashForLogging st.username) "login").2
            loginRetryCount := 0
            cookie := some (cks st.netLoginCalls)
            store := storeSession cfg.smCfg st.store now st.baseURL st.username
              ⟨some (cks st.netLoginCalls), none⟩
            netLoginCalls := st.netLoginCalls + 1 } now loginNet
        (hallow2 (checkRateLimit cfg.monCfg st.monitor now
          (hashForLogging st.username) "login").2 hledger1)]
      exact loginNetwork_success cfg _ now loginNet (cks (st.netLoginCalls + 1))
        (hnet (st.netLoginCalls + 1))
    refine ⟨?_, ?_, ?_⟩
    · rw [e1]
    · rw [p1, e2]
    · rw [p1, e2]

/-- Witness for C2 at concrete inputs (cold cache for parts b and c, plus a
warm fresh record for part a). -/
theorem c2_login_idempotence_spec_witness :
    (login {} ⟨"https://x", "admin", none, 0,
        [(generateSessionKey "https://x" "admin",
          ⟨⟨some "c", some 1000⟩, some 3601000⟩)],
        MonitorState.empty, 0⟩ 1000 (fun k => .success (toString k)) false).1 =
      .ok ⟨true⟩ ∧
    (login {} (login {} ⟨"https://x", "admin", none, 0, [],
        MonitorState.empty, 0⟩ 1000 (fun k => .success (toString k)) false).2
        1000 (fun k => .success (toString k)) false).2.netLoginCalls = 1 ∧
    (login {} (login {} ⟨"https://x", "admin", none, 0, [],
        MonitorState.empty, 0⟩ 1000 (fun k => .success (toString k)) true).2
        1000 (fun k => .success (toString k)) true).2.netLoginCalls = 2 := by
  have hwarm := c2_login_idempotence_spec {}
    ⟨"https://x", "admin", none, 0,
      [(generateSessionKey "https://x" "admin",
        ⟨⟨some "c", some 1000⟩, some 3601000⟩)], MonitorState.empty, 0⟩
    1000 (fun k => .success (toString k)) ⟨some "c", some 1000⟩ "c" toString
    rfl (by decide) (by decide) (fun _ => rfl)
  have hcold := c2_login_idempotence_spec {}
    ⟨"https://x", "admin", none, 0, [], MonitorState.empty, 0⟩
    1000 (fun k => .success (toString k)) ⟨some "c", some 1000⟩ "c" toString
    rfl (by decide) (by decide) (fun _ => rfl)
  refine ⟨?_, (hcold.2.1 rfl).2.2, hcold.2.2.2.2⟩
  refine (hwarm.1 ?_ rfl ?_).1
  · show msGet _ 1000 _ = _
    simp [msGet, storeLookup]
  · decide

/-! ## C10 — login(false) ignores the refresh threshold -/

/-- **C10**: with the default session-manager options, `login(false)`
restores any cached record that has a `cookie` field without ever
consulting `shouldRefreshSession`: a record whose age has crossed the
refresh threshold (2 880 000 ms) but whose store entry has not yet expired
is restored with `fromCache: true` and zero network calls, even though
`hasValidSession` (the heart of `isSessionValid`) reports that same session
invalid at that moment. -/
theorem c10_login_ignores_threshold (st : ClientState) (now : Nat)
    (loginNet : Nat → LoginNet) (c : String) (t0 exp : Nat)
    (hrate : st.monitor.loginLog = [])
    (hentry : storeLookup st.store (generateSessionKey st.baseURL st.username) =
      some ⟨⟨some c, some t0⟩, some exp⟩)
    (hunexpired : now < exp)
    (hstale : 2880000 ≤ now - t0) :
    shouldRefreshSession {} now ⟨some c, some t0⟩ = true ∧
    (hasValidSession {} st.store now st.baseURL st.username).1 = false ∧
    (login {} st now loginNet false).1 = .ok ⟨true⟩ ∧
    (login {} st now loginNet false).2.netLoginCalls = st.netLoginCalls := by
  have hsr : shouldRefreshSession {} now ⟨some c, some t0⟩ = true := by
    simp only [shouldRefreshSession, ge_iff_le, decide_eq_true_eq]
    omega
  have hget : getSession st.store now st.baseURL st.username =
      (some ⟨some c, some t0⟩, st.store) := by
    show msGet _ now _ = _
    rw [msGet, hentry]
    simp only [show ¬(exp ≤ now) by omega, ite_false]
  have hvs : (hasValidSession {} st.store now st.baseURL st.username).1 =
      false := by
    simp only [hasValidSession, hget, hsr, SMConfig.autoRefresh,
      Bool.and_self, ite_true]
  have hallow : (checkRateLimit ({} : ClientConfig).monCfg st.monitor now
      (hashForLogging st.username) "login").1 = true := by
    apply (checkRateLimit_login_spec _ st.monitor now _).2.1.mpr
    rw [show logLookup st.monitor.loginLog (hashForLogging st.username) = []
      from by rw [hrate]; rfl]
    simp
  have e1 := login_spec_cacheHit {} st now loginNet ⟨some c, some t0⟩ st.store
    c hallow hget rfl
  rw [e1]
  exact ⟨hsr, hvs, rfl, rfl⟩

/-- Witness for C10: a record created at 0 read at 2 880 000 ms (exactly the
default threshold) with store expiry 3 600 000 ms. -/
theorem c10_login_ignores_threshold_witness :
    (hasValidSession {} [(generateSessionKey "https://x" "admin",
      ⟨⟨some "c", some 0⟩, some 3600000⟩)] 2880000 "https://x" "admin").1 =
      false ∧
    (login {} ⟨"https://x", "admin", none, 0,
      [(generateSessionKey "https://x" "admin",
        ⟨⟨some "c", some 0⟩, some 3600000⟩)], MonitorState.empty, 0⟩ 2880000
      (fun k => .success (toString k)) false).1 = .ok ⟨true⟩ ∧
    (login {} ⟨"https://x", "admin", none, 0,
      [(generateSessionKey "https://x" "admin",
        ⟨⟨some "c", some 0⟩, some 3600000⟩)], MonitorState.empty, 0⟩ 2880000
      (fun k => .success (toString k)) false).2.netLoginCalls = 0 := by
  have h := c10_login_ignores_threshold
    ⟨"https://x", "admin", none, 0,
      [(generateSessionKey "https://x" "admin",
        ⟨⟨some "c", some 0⟩, some 3600000⟩)], MonitorState.empty, 0⟩ 2880000
    (fun k => .success (toString k)) "c" 0 3600000 rfl
    (by simp [storeLookup]) (by omega) (by omega)
  exact ⟨h.2.1, h.2.2.1, h.2.2.2⟩

/-! ## C4 — failed-login counter (corrected) -/

/-- Counterexample to C4 as stated: a client whose failed-login counter
already equals the maximum (3) still performs a network login call on the
next attempt (`netLoginCalls` goes from 0 to 1) — there is no fail-fast on
the counter; the attempt fails, the counter advances to 4, and the
`multiple_failed_logins` activity is recorded after the network call. -/
theorem c4_failFast_counterexample :
    (login {} ⟨"https://x", "admin", none, 3, [], MonitorState.empty, 0⟩ 1000
      (fun _ => .failure "bad credentials") false).2.netLoginCalls = 1 ∧
    (login {} ⟨"https://x", "admin", none, 3, [], MonitorState.empty, 0⟩ 1000
      (fun _ => .failure "bad credentials") false).1 =
      .error ⟨none, "Login failed: bad credentials"⟩ ∧
    (login {} ⟨"https://x", "admin", none, 3, [], MonitorState.empty, 0⟩ 1000
      (fun _ => .failure "bad credentials") false).2.loginRetryCount = 4 ∧
    (login {} ⟨"https://x", "admin", none, 3, [], MonitorState.empty, 0⟩ 1000
      (fun _ => .failure "bad credentials") false).2.monitor.activities.getLast?
      = some ⟨"multiple_failed_logins"⟩ := by
  set_option maxRecDepth 1000000 in decide

/-- **C4** (amended): each failed login attempt increments the failed-login
counter; once the counter has reached `maxLoginRetries` (default 3), a
further attempt still performs the network call — the code has no
counter-based fail-fast — and, failing, logs a `multiple_failed_logins`
suspicious-activity record; the only fail-fast path that skips the network
is the hourly login rate limiter. -/
theorem c4_failed_login_spec (cfg : ClientConfig) (st : ClientState)
    (now : Nat) (loginNet : Nat → LoginNet) (m : String)
    (hrate : st.monitor.loginLog = [])
    (hmax : 1 ≤ cfg.monCfg.maxLoginAttemptsPerHour)
    (hmiss : storeLookup st.store (generateSessionKey st.baseURL st.username) =
      none)
    (hnet : loginNet st.netLoginCalls = .failure m) :
    ((login cfg st now loginNet false).1 =
      .error ⟨none, "Login failed: " ++ m⟩ ∧
    (login cfg st now loginNet false).2.loginRetryCount =
      st.loginRetryCount + 1 ∧
    (login cfg st now loginNet false).2.netLoginCalls = st.netLoginCalls + 1 ∧
    (cfg.maxLoginRetries ≤ st.loginRetryCount + 1 →
      (login cfg st now loginNet false).2.monitor.activities.getLast? =
        some ⟨"multiple_failed_logins"⟩)) ∧
    (∀ st' : ClientState,
      (checkRateLimit cfg.monCfg st'.monitor now
        (hashForLogging st'.username) "login").1 = false →
      (login cfg st' now loginNet false).1 =
        .error ⟨none, "Rate limit exceeded for login attempts"⟩ ∧
      (login cfg st' now loginNet false).2.netLoginCalls = st'.netLoginCalls) := by
  have hallow : (checkRateLimit cfg.monCfg st.monitor now
      (hashForLogging st.username) "login").1 = true := by
    apply (checkRateLimit_login_spec cfg.monCfg st.monitor now _).2.1.mpr
    rw [show logLookup st.monitor.loginLog (hashForLogging st.username) = []
      from by rw [hrate]; rfl]
    simpa using by omega
  have hget : getSession st.store now st.baseURL st.username =
      (none, st.store) := msGet_of_lookup_none st.store now _ hmiss
  have e1 : login cfg st now loginNet false =
      (.error ⟨none, "Login failed: " ++ m⟩,
        if cfg.maxLoginRetries ≤ st.loginRetryCount + 1 then
          { st with
              monitor := logSuspiciousActivity
                (checkRateLimit cfg.monCfg st.monitor now
                  (hashForLogging st.username) "login").2
                "multiple_failed_logins"
              loginRetryCount := st.loginRetryCount + 1
              netLoginCalls := st.netLoginCalls + 1 }
        else
          { st with
              monitor := (checkRateLimit cfg.monCfg st.monitor now
                (hashForLogging st.username) "login").2
              loginRetryCount := st.loginRetryCount + 1
              netLoginCalls := st.netLoginCalls + 1 }) := by
    rw [login_spec_cacheMiss cfg st now loginNet st.store hallow hget]
    exact loginNetwork_failure cfg _ now loginNet m hnet
  refine ⟨⟨?_, ?_, ?_, ?_⟩, ?_⟩
  · rw [e1]
  · rw [e1]
    by_cases hge : cfg.maxLoginRetries ≤ st.loginRetryCount + 1
    · rw [if_pos hge]
    · rw [if_neg hge]
  · rw [e1]
    by_cases hge : cfg.maxLoginRetries ≤ st.loginRetryCount + 1
    · rw [if_pos hge]
    · rw [if_neg hge]
  · intro hge
    rw [e1, if_pos hge]
    exact logSuspiciousActivity_getLast _ _
  · intro st' hdeny
    rw [login_spec_rateLimited cfg st' now loginNet false hdeny]
    exact ⟨rfl, rfl⟩

/-- Witness for C4's amended theorem at the counterexample's concrete
input (counter already at the maximum). -/
theorem c4_failed_login_spec_witness :
    (login {} ⟨"https://x", "admin", none, 3, [], MonitorState.empty, 7⟩ 1000
      (fun _ => .failure "bad credentials") false).1 =
      .error ⟨none, "Login failed: bad credentials"⟩ ∧
    (login {} ⟨"https://x", "admin", none, 3, [], MonitorState.empty, 7⟩ 1000
      (fun _ => .failure "bad credentials") false).2.netLoginCalls = 8 ∧
    (login {} ⟨"https://x", "admin", none, 3, [], MonitorState.empty, 7⟩ 1000
      (fun _ => .failure "bad credentials") false).2.monitor.activities.getLast?
      = some ⟨"multiple_failed_logins"⟩ := by
  have h := c4_failed_login_spec {}
    ⟨"https://x", "admin", none, 3, [], MonitorState.empty, 7⟩ 1000
    (fun _ => .failure "bad credentials") "bad credentials" rfl (by decide)
    rfl rfl
  exact ⟨h.1.1, h.1.2.2.1, h.1.2.2.2 (by decide)⟩

/-! ## C1 — 401 handling in _request (corrected) -/

/-- Counterexample to C1 as stated: an authenticated client whose operation
endpoint always answers 401 (while login succeeds) makes exactly 2 HTTP
attempts (1 original + 1 retry), but the error that propagates is the
retry's own 401 error — not the terminal "Maximum login retry attempts
exceeded" error, because the forced re-login succeeds and resets the retry
counter before the retry. -/
theorem c1_always401_counterexample :
    (request {} ⟨"https://x", "admin", some "c", 0,
      [(generateSessionKey "https://x" "admin",
        ⟨⟨some "c", some 1000⟩, some 3601000⟩)], MonitorState.empty, 0⟩ 1000
      (fun _ => .success "c2")
      (fun _ _ => .error ⟨some 401, "Request failed with status code 401"⟩)
      ).opAttempts = 2 ∧
    (request {} ⟨"https://x", "admin", some "c", 0,
      [(generateSessionKey "https://x" "admin",
        ⟨⟨some "c", some 1000⟩, some 3601000⟩)], MonitorState.empty, 0⟩ 1000
      (fun _ => .success "c2")
      (fun _ _ => .error ⟨some 401, "Request failed with status code 401"⟩)
      ).result = .error ⟨some 401, "Request failed with status code 401"⟩ ∧
    ¬ (request {} ⟨"https://x", "admin", some "c", 0,
      [(generateSessionKey "https://x" "admin",
        ⟨⟨some "c", some 1000⟩, some 3601000⟩)], MonitorState.empty, 0⟩ 1000
      (fun _ => .success "c2")
      (fun _ _ => .error ⟨some 401, "Request failed with status code 401"⟩)
      ).result = .error maxRetriesError ∧
    (request {} ⟨"https://x", "admin", some "c", 0,
      [(generateSessionKey "https://x" "admin",
        ⟨⟨some "c", some 1000⟩, some 3601000⟩)], MonitorState.empty, 0⟩ 1000
      (fun _ => .success "c2")
      (fun _ _ => .error ⟨some 401, "Request failed with status code 401"⟩)
      ).state.netLoginCalls = 1 := by
  set_option maxRecDepth 1000000 in decide

/-- `_request` for an authenticated client (valid session, cookie held):
the pre-flight guards pass and the call reduces to issuing the operation
and handling its outcome. -/
theorem request_auth_eq (cfg : ClientConfig) (st : ClientState) (now : Nat)
    (loginNet : Nat → LoginNet)
    (op : Nat → Option String → Except JsError String) (c : String)
    (hvalid : hasValidSession cfg.smCfg st.store now st.baseURL st.username =
      (true, st.store))
    (hcookie : st.cookie = some c) :
    request cfg st now loginNet op =
      match op 0 (some c) with
      | .ok d => ⟨.ok d, { st with loginRetryCount := 0 }, 1⟩
      | .error e =>
        if e.status = some 401 then
          if st.loginRetryCount < cfg.maxLoginRetries then
            match login cfg st now loginNet true with
            | (.error e2, st'') => ⟨.error e2, st'', 1⟩
            | (.ok _, st'') =>
              match op 1 st''.cookie with
              | .ok d => ⟨.ok d, st'', 2⟩
              | .error e2 => ⟨.error e2, st'', 2⟩
          else ⟨.error maxRetriesError, st, 1⟩
        else ⟨.error e, st, 1⟩ := by
  obtain ⟨bu, un, ck, lrc, sto, mon, nlc⟩ := st
  change ck = some c at hcookie
  subst hcookie
  unfold request
  rw [hvalid]
  rfl

/-- **C1** (amended): for an authenticated operation whose first attempt
returns an error, (1) on a 401 with the retry counter below the maximum the
client forces one fresh network login (bypassing the valid cached session)
and retries exactly once, the retry's outcome — success or its own error —
being returned as-is; (2) on a 401 with the counter at the maximum the
terminal "Maximum login retry attempts exceeded" error is raised after the
single attempt, with no further network login; (3) any error with a status
other than 401 propagates unchanged, with no re-authentication and no
retry. -/
theorem c1_request_401_spec (cfg : ClientConfig) (st : ClientState)
    (now : Nat) (loginNet : Nat → LoginNet)
    (op : Nat → Option String → Except JsError String)
    (c : String) (cks : Nat → String) (e : JsError)
    (hvalid : hasValidSession cfg.smCfg st.store now st.baseURL st.username =
      (true, st.store))
    (hcookie : st.cookie = some c)
    (hrate : st.monitor.loginLog = [])
    (hmax : 1 ≤ cfg.monCfg.maxLoginAttemptsPerHour)
    (hnet : ∀ k, loginNet k = .success (cks k))
    (hop : op 0 (some c) = .error e) :
    (e.status = some 401 → st.loginRetryCount < cfg.maxLoginRetries →
      (request cfg st now loginNet op).opAttempts = 2 ∧
      (request cfg st now loginNet op).state.netLoginCalls =
        st.netLoginCalls + 1 ∧
      (request cfg st now loginNet op).result =
        op 1 (some (cks st.netLoginCalls))) ∧
    (e.status = some 401 → cfg.maxLoginRetries ≤ st.loginRetryCount →
      (request cfg st now loginNet op).result = .error maxRetriesError ∧
      (request cfg st now loginNet op).opAttempts = 1 ∧
      (request cfg st now loginNet op).state.netLoginCalls =
        st.netLoginCalls) ∧
    (e.status ≠ some 401 →
      (request cfg st now loginNet op).result = .error e ∧
      (request cfg st now loginNet op).opAttempts = 1 ∧
      (request cfg st now loginNet op).state.netLoginCalls =
        st.netLoginCalls) := by
  have hauth := request_auth_eq cfg st now loginNet op c hvalid hcookie
  rw [hop] at hauth
  simp only [] at hauth
  have hallow1 : (checkRateLimit cfg.monCfg st.monitor now
      (hashForLogging st.username) "login").1 = true := by
    apply (checkRateLimit_login_spec cfg.monCfg st.monitor now _).2.1.mpr
    rw [show logLookup st.monitor.loginLog (hashForLogging st.username) = []
      from by rw [hrate]; rfl]
    simpa using by omega
  have e1 : login cfg st now loginNet true = (.ok ⟨false⟩,
      { st with
          monitor := (checkRateLimit cfg.monCfg st.monitor now
            (hashForLogging st.username) "login").2
          loginRetryCount := 0
          cookie := some (cks st.netLoginCalls)
          store := storeSession cfg.smCfg st.store now st.baseURL st.username
            ⟨some (cks st.netLoginCalls), none⟩
          netLoginCalls := st.netLoginCalls + 1 }) := by
    rw [login_spec_force cfg st now loginNet hallow1]
    exact loginNetwork_success cfg _ now loginNet (cks st.netLoginCalls)
      (hnet st.netLoginCalls)
  refine ⟨?_, ?_, ?_⟩
  · intro h401 hlt
    rw [hauth, if_pos h401, if_pos hlt, e1]
    cases hop1 : op 1 (some (cks st.netLoginCalls)) <;> simp [hop1]
  · intro h401 hge
    rw [hauth, if_pos h401, if_neg (Nat.not_lt.mpr hge)]
    exact ⟨rfl, rfl, rfl⟩
  · intro hne
    rw [hauth, if_neg hne]
    exact ⟨rfl, rfl, rfl⟩

/-- Witness for C1's amended theorem: the counterexample's client, 500 and
401 first responses. -/
theorem c1_request_401_spec_witness :
    (request {} ⟨"https://x", "admin", some "c", 0,
      [(generateSessionKey "https://x" "admin",
        ⟨⟨some "c", some 1000⟩, some 3601000⟩)], MonitorState.empty, 0⟩ 1000
      (fun k => .success (toString k))
      (fun _ _ => .error ⟨some 401, "E401"⟩)).opAttempts = 2 ∧
    (request {} ⟨"https://x", "admin", some "c", 0,
      [(generateSessionKey "https://x" "admin",
        ⟨⟨some "c", some 1000⟩, some 3601000⟩)], MonitorState.empty, 0⟩ 1000
      (fun k => .success (toString k))
      (fun _ _ => .error ⟨some 500, "boom"⟩)).result =
      .error ⟨some 500, "boom"⟩ := by
  have hvalid : hasValidSession ({} : ClientConfig).smCfg
      [(generateSessionKey "https://x" "admin",
        ⟨⟨some "c", some 1000⟩, some 3601000⟩)] 1000 "https://x" "admin" =
      (true, [(generateSessionKey "https://x" "admin",
        ⟨⟨some "c", some 1000⟩, some 3601000⟩)]) := by
    rw [hasValidSession]
    rw [show getSession [(generateSessionKey "https://x" "admin",
      ⟨⟨some "c", some 1000⟩, some 3601000⟩)] 1000 "https://x" "admin" =
      (some ⟨some "c", some 1000⟩, [(generateSessionKey "https://x" "admin",
        ⟨⟨some "c", some 1000⟩, some 3601000⟩)]) from by
      show msGet _ 1000 _ = _
      simp [msGet, storeLookup]]
    simp [shouldRefreshSession]
  have h401 := c1_request_401_spec {}
    ⟨"https://x", "admin", some "c", 0,
      [(generateSessionKey "https://x" "admin",
        ⟨⟨some "c", some 1000⟩, some 3601000⟩)], MonitorState.empty, 0⟩ 1000
    (fun k => .success (toString k)) (fun _ _ => .error ⟨some 401, "E401"⟩)
    "c" toString ⟨some 401, "E401"⟩ hvalid rfl rfl (by decide)
    (fun _ => rfl) rfl
  have h500 := c1_request_401_spec {}
    ⟨"https://x", "admin", some "c", 0,
      [(generateSessionKey "https://x" "admin",
        ⟨⟨some "c", some 1000⟩, some 3601000⟩)], MonitorState.empty, 0⟩ 1000
    (fun k => .success (toString k)) (fun _ _ => .error ⟨some 500, "boom"⟩)
    "c" toString ⟨some 500, "boom"⟩ hvalid rfl rfl (by decide)
    (fun _ => rfl) rfl
  exact ⟨(h401.1 rfl (by decide)).1, (h500.2.2 (by decide)).1⟩

/-! ## C9 — concurrency (corrected) -/

namespace Conc

theorem getD_set_self (l : List PC) (i : Nat) (v : PC) (hi : i < l.length) :
    (l.set i v).getD i .reqPre = v := by
  rw [List.getD_eq_getD_get?, List.get?_set_eq_of_lt v hi]
  rfl

theorem getD_set_ne (l : List PC) (i j : Nat) (v : PC) (hij : i ≠ j) :
    (l.set i v).getD j .reqPre = l.getD j .reqPre := by
  rw [List.getD_eq_getD_get?, List.get?_set_ne v l hij, ← List.getD_eq_getD_get?]

theorem getD_replicate (n j : Nat) :
    (List.replicate n PC.reqPre).getD j .reqPre = .reqPre := by
  induction n generalizing j with
  | zero => rfl
  | succ m ih =>
    cases j with
    | zero => rfl
    | succ j' => exact ih j'

/-- Every step either leaves the mutex and the holding status of the
stepped task alike, acquires the mutex (entering the login section), or
leaves the login section releasing the mutex. -/
theorem stepPC_cases (sh : Shared) (pc : PC) :
    ((stepPC sh pc).1.mutex = sh.mutex ∧
      isHolding (stepPC sh pc).2 = isHolding pc) ∨
    (sh.mutex = false ∧ isHolding pc = false ∧
      (stepPC sh pc).1.mutex = true ∧ isHolding (stepPC sh pc).2 = true) ∨
    (isHolding pc = true ∧ (stepPC sh pc).1.mutex = false ∧
      isHolding (stepPC sh pc).2 = false) := by
  cases pc with
  | reqPre =>
    left
    constructor <;> simp only [stepPC] <;> split_ifs <;> rfl
  | eaCheck f k =>
    by_cases hm : sh.mutex = true
    · left
      simp [stepPC, hm, isHolding]
    · right; left
      simp only [Bool.not_eq_true] at hm
      simp [stepPC, hm, isHolding]
  | eaWait f k =>
    left
    constructor <;> simp only [stepPC] <;> split_ifs <;> rfl
  | loginStart f k =>
    simp only [stepPC]
    split_ifs with h1
    · right; right
      exact ⟨rfl, rfl, rfl⟩
    · cases f with
      | true => left; exact ⟨rfl, rfl⟩
      | false =>
        cases hc : sh.cache with
        | none => left; exact ⟨rfl, rfl⟩
        | some t => right; right; exact ⟨rfl, rfl, rfl⟩
  | loginNet f k =>
    right; right
    exact ⟨rfl, rfl, rfl⟩
  | issue a =>
    left
    exact ⟨rfl, rfl⟩
  | awaitResp a sent =>
    left
    cases sent with
    | some t =>
      constructor <;> simp only [stepPC] <;> split_ifs <;> rfl
    | none =>
      constructor <;> simp only [stepPC] <;> split_ifs <;> rfl
  | doneOk t => left; exact ⟨rfl, rfl⟩
  | doneErr code => left; exact ⟨rfl, rfl⟩

theorem mutexInv_step (c : Config) (i : Nat) (h : MutexInv c) :
    MutexInv (step c i) := by
  cases hget : c.tasks.get? i with
  | none =>
    have hstep : step c i = c := by
      unfold step
      rw [hget]
    rw [hstep]
    exact h
  | some pc =>
    have hi : i < c.tasks.length := by
      by_contra hge
      rw [List.get?_eq_none.mpr (Nat.le_of_not_lt hge)] at hget
      exact Option.noConfusion hget
    have hgetD : c.tasks.getD i .reqPre = pc := by
      rw [List.getD_eq_getD_get?, hget]
      rfl
    have hstep : step c i =
        ⟨(stepPC c.shared pc).1, c.tasks.set i (stepPC c.shared pc).2⟩ := by
      unfold step
      rw [hget]
    rw [hstep]
    rcases stepPC_cases c.shared pc with ⟨hmx, hhold⟩ |
      ⟨hm0, hp0, hmx, hhold⟩ | ⟨hp1, hmx, hhold⟩
    · -- neutral step
      by_cases hm : c.shared.mutex = true
      · rw [MutexInv, if_pos hm] at h
        obtain ⟨hidx, hlt, hh, hu⟩ := h
        rw [MutexInv]
        simp only [hmx, hm, if_pos]
        by_cases hieq : i = hidx
        · subst hieq
          refine ⟨i, by simpa using hi, ?_, ?_⟩
          · rw [getD_set_self _ _ _ hi, hhold, ← hgetD]
            exact hh
          · intro j hj
            rw [getD_set_ne _ _ _ _ (fun hij => hj hij.symm)]
            exact hu j hj
        · refine ⟨hidx, by simpa using hlt, ?_, ?_⟩
          · rw [getD_set_ne _ _ _ _ hieq]
            exact hh
          · intro j hj
            by_cases hji : j = i
            · subst hji
              rw [getD_set_self _ _ _ hi, hhold, ← hgetD]
              exact hu j hieq
            · rw [getD_set_ne _ _ _ _ (fun hij => hji hij.symm)]
              exact hu j hj
      · have hm' : c.shared.mutex = false := by
          simpa using hm
        rw [MutexInv, if_neg (by simp [hm'])] at h
        rw [MutexInv]
        rw [hmx]
        rw [if_neg (by simp [hm'])]
        intro j
        by_cases hji : j = i
        · subst hji
          rw [getD_set_self _ _ _ hi, hhold, ← hgetD]
          exact h j
        · rw [getD_set_ne _ _ _ _ (fun hij => hji hij.symm)]
          exact h j
    · -- acquire
      rw [MutexInv, if_neg (by simp [hm0])] at h
      rw [MutexInv]
      simp only [hmx, if_pos]
      refine ⟨i, by simpa using hi, ?_, ?_⟩
      · rw [getD_set_self _ _ _ hi]
        exact hhold
      · intro j hj
        rw [getD_set_ne _ _ _ _ (fun hij => hj hij.symm)]
        exact h j
    · -- release
      have hm : c.shared.mutex = true := by
        by_contra hm
        have hm' : c.shared.mutex = false := by simpa using hm
        rw [MutexInv, if_neg (by simp [hm'])] at h
        have := h i
        rw [hgetD] at this
        exact absurd hp1 (by simp [this])
      rw [MutexInv, if_pos (by simp [hm])] at h
      obtain ⟨hidx, hlt, hh, hu⟩ := h
      have hieq : i = hidx := by
        by_contra hne
        have := hu i hne
        rw [hgetD] at this
        exact absurd hp1 (by simp [this])
      subst hieq
      rw [MutexInv]
      rw [hmx]
      simp only [Bool.false_eq_true, if_neg, ite_false]
      intro j
      by_cases hji : j = i
      · subst hji
        rw [getD_set_self _ _ _ hi]
        exact hhold
      · rw [getD_set_ne _ _ _ _ (fun hij => hji hij.symm)]
        exact hu j hji

theorem mutexInv_run (sched : List Nat) (c : Config) (h : MutexInv c) :
    MutexInv (run c sched) := by
  induction sched generalizing c with
  | nil => exact h
  | cons i rest ih => exact ih (step c i) (mutexInv_step c i h)

theorem mutexInv_init (n : Nat) : MutexInv (init n) := by
  rw [MutexInv]
  simp only [init, Bool.false_eq_true, if_neg, ite_false]
  intro j
  rw [getD_replicate]
  rfl

theorem tokOk_mono (sh sh' : Shared) (hm : sh.netLogins ≤ sh'.netLogins)
    (t : Nat) (h : tokOk sh t) : tokOk sh' t :=
  ⟨h.1, le_trans h.2 hm⟩

theorem optOk_mono (sh sh' : Shared) (hm : sh.netLogins ≤ sh'.netLogins)
    (o : Option Nat) (h : optOk sh o) : optOk sh' o := by
  cases o with
  | none => exact trivial
  | some t => exact tokOk_mono sh sh' hm t h

theorem pcOk_mono (sh sh' : Shared) (hm : sh.netLogins ≤ sh'.netLogins)
    (pc : PC) (h : pcOk sh pc) : pcOk sh' pc := by
  cases pc with
  | awaitResp a sent => exact optOk_mono sh sh' hm sent h
  | doneOk t => exact tokOk_mono sh sh' hm t h
  | reqPre => exact trivial
  | eaCheck f k => exact trivial
  | eaWait f k => exact trivial
  | loginStart f k => exact trivial
  | loginNet f k => exact trivial
  | issue a => exact trivial
  | doneErr code => exact trivial

theorem stepPC_netLogins (sh : Shared) (pc : PC) :
    sh.netLogins ≤ (stepPC sh pc).1.netLogins := by
  obtain ⟨mx, ck, ca, rc, att, nl⟩ := sh
  cases pc with
  | reqPre => simp only [stepPC]; split_ifs <;> exact Nat.le_refl _
  | eaCheck f k => simp only [stepPC]; split_ifs <;> exact Nat.le_refl _
  | eaWait f k => simp only [stepPC]; split_ifs <;> exact Nat.le_refl _
  | loginStart f k =>
    simp only [stepPC]
    split_ifs
    · exact Nat.le_refl _
    · cases f <;> cases ca <;> exact Nat.le_refl _
  | loginNet f k => exact Nat.le_succ _
  | issue a => exact Nat.le_refl _
  | awaitResp a sent =>
    simp only [stepPC]
    cases sent <;> split_ifs <;> exact Nat.le_refl _
  | doneOk t => exact Nat.le_refl _
  | doneErr code => exact Nat.le_refl _

theorem stepPC_tok (sh : Shared) (pc : PC)
    (hcookie : optOk sh sh.cookie) (hcache : optOk sh sh.cache)
    (hpc : pcOk sh pc) :
    optOk (stepPC sh pc).1 (stepPC sh pc).1.cookie ∧
    optOk (stepPC sh pc).1 (stepPC sh pc).1.cache ∧
    pcOk (stepPC sh pc).1 (stepPC sh pc).2 := by
  obtain ⟨mx, ck, ca, rc, att, nl⟩ := sh
  cases pc with
  | reqPre =>
    simp only [stepPC]
    split_ifs <;> exact ⟨hcookie, hcache, trivial⟩
  | eaCheck f k =>
    simp only [stepPC]
    split_ifs <;> exact ⟨hcookie, hcache, trivial⟩
  | eaWait f k =>
    simp only [stepPC]
    split_ifs <;> exact ⟨hcookie, hcache, trivial⟩
  | loginStart f k =>
    simp only [stepPC]
    split_ifs
    · exact ⟨hcookie, hcache, trivial⟩
    · cases f with
      | true => exact ⟨hcookie, hcache, trivial⟩
      | false =>
        cases ca with
        | none => exact ⟨hcookie, hcache, trivial⟩
        | some t => exact ⟨hcache, hcache, trivial⟩
  | loginNet f k =>
    exact ⟨⟨Nat.le_add_left 1 nl, Nat.le_refl _⟩,
      ⟨Nat.le_add_left 1 nl, Nat.le_refl _⟩, trivial⟩
  | issue a => exact ⟨hcookie, hcache, hcookie⟩
  | awaitResp a sent =>
    simp only [stepPC]
    cases sent with
    | some t => split_ifs <;> exact ⟨hcookie, hcache, hpc⟩
    | none => split_ifs <;> exact ⟨hcookie, hcache, trivial⟩
  | doneOk t => exact ⟨hcookie, hcache, hpc⟩
  | doneErr code => exact ⟨hcookie, hcache, trivial⟩

theorem tokInv_step (c : Config) (i : Nat) (h : TokInv c) :
    TokInv (step c i) := by
  cases hget : c.tasks.get? i with
  | none =>
    have hstep : step c i = c := by
      unfold step
      rw [hget]
    rw [hstep]
    exact h
  | some pc =>
    obtain ⟨hck, hca, hpcs⟩ := h
    have hi : i < c.tasks.length := by
      by_contra hge
      rw [List.get?_eq_none.mpr (Nat.le_of_not_lt hge)] at hget
      exact Option.noConfusion hget
    have hgetD : c.tasks.getD i .reqPre = pc := by
      rw [List.getD_eq_getD_get?, hget]
      rfl
    have hstep : step c i =
        ⟨(stepPC c.shared pc).1, c.tasks.set i (stepPC c.shared pc).2⟩ := by
      unfold step
      rw [hget]
    have hmono := stepPC_netLogins c.shared pc
    obtain ⟨h1, h2, h3⟩ := stepPC_tok c.shared pc hck hca (hgetD ▸ hpcs i)
    rw [hstep]
    refine ⟨h1, h2, ?_⟩
    intro j
    by_cases hji : j = i
    · subst hji
      rw [getD_set_self _ _ _ hi]
      exact h3
    · rw [getD_set_ne _ _ _ _ (fun hij => hji hij.symm)]
      exact pcOk_mono _ _ hmono _ (hpcs j)

theorem tokInv_run (sched : List Nat) (c : Config) (h : TokInv c) :
    TokInv (run c sched) := by
  induction sched generalizing c with
  | nil => exact h
  | cons i rest ih => exact ih (step c i) (tokInv_step c i h)

theorem tokInv_init (n : Nat) : TokInv (init n) := by
  refine ⟨trivial, trivial, ?_⟩
  intro j
  rw [show (init n).tasks.getD j .reqPre = .reqPre from getD_replicate n j]
  exact trivial

theorem allDone_tokens (c : Config) (h : TokInv c) (i : Nat)
    (hd : isDoneOk (c.tasks.getD i .reqPre) = true) :
    ∃ t, c.tasks.getD i .reqPre = .doneOk t ∧ 1 ≤ t ∧
      t ≤ c.shared.netLogins := by
  obtain ⟨_, _, hpcs⟩ := h
  cases hpc : c.tasks.getD i .reqPre with
  | doneOk t =>
    have hp := hpcs i
    rw [hpc] at hp
    exact ⟨t, rfl, hp.1, hp.2⟩
  | reqPre => rw [hpc] at hd; exact Bool.noConfusion hd
  | eaCheck f k => rw [hpc] at hd; exact Bool.noConfusion hd
  | eaWait f k => rw [hpc] at hd; exact Bool.noConfusion hd
  | loginStart f k => rw [hpc] at hd; exact Bool.noConfusion hd
  | loginNet f k => rw [hpc] at hd; exact Bool.noConfusion hd
  | issue a => rw [hpc] at hd; exact Bool.noConfusion hd
  | awaitResp a sent => rw [hpc] at hd; exact Bool.noConfusion hd
  | doneErr code => rw [hpc] at hd; exact Bool.noConfusion hd

theorem mutexInv_atMostOne (c : Config) (h : MutexInv c) (i j : Nat)
    (hhi : isHolding (c.tasks.getD i .reqPre) = true)
    (hhj : isHolding (c.tasks.getD j .reqPre) = true) : i = j := by
  rw [MutexInv] at h
  by_cases hm : c.shared.mutex = true
  · rw [if_pos (by simp [hm])] at h
    obtain ⟨hidx, _, _, hu⟩ := h
    have hih : i = hidx := by
      by_contra hne
      rw [hu i hne] at hhi
      exact Bool.noConfusion hhi
    have hjh : j = hidx := by
      by_contra hne
      rw [hu j hne] at hhj
      exact Bool.noConfusion hhj
    rw [hih, hjh]
  · rw [if_neg (by simpa using hm)] at h
    rw [h i] at hhi
    exact Bool.noConfusion hhi

set_option maxRecDepth 1000000 in
/-- Counterexample to C9 as stated: with 2 concurrent operations and no
cached session there is an interleaving in which task 1 starts its
request while task 0 holds the login mutex, skips authentication, gets a
401, and then force-logs-in itself — both operations succeed, but the
network login endpoint is hit twice, not exactly once. -/
theorem c9_single_login_counterexample :
    (run (init 2) [0, 0, 1, 1, 0, 0, 0, 0, 1, 1, 1, 1, 1, 1]).tasks =
      [PC.doneOk 1, PC.doneOk 2] ∧
    (run (init 2) [0, 0, 1, 1, 0, 0, 0, 0, 1, 1, 1, 1, 1, 1]).shared.netLogins
      = 2 ∧
    ¬ ((run (init 2)
        [0, 0, 1, 1, 0, 0, 0, 0, 1, 1, 1, 1, 1, 1]).shared.netLogins = 1) := by
  decide

set_option maxRecDepth 1000000 in
/-- **C9** (amended). The boolean mutex does guarantee at most one login
attempt is in flight at any time, on every schedule (conjunct 1), and a
task waiting on the mutex performs no side effect at all — it only
re-polls or proceeds once the mutex is free (conjunct 2). If all N
concurrent operations complete successfully then at least one network
login happened and each operation finished with a token issued by one of
the network logins performed so far (conjunct 3). There exists a schedule
on which 10 concurrent operations with no cached session all succeed with
exactly 1 network login call, all using that single token (conjunct 4) —
but exactly-one-login does not hold on every schedule, as
the counterexample theorem above shows. -/
theorem c9_mutex_spec :
    (∀ (n : Nat) (sched : List Nat) (i j : Nat),
      isHolding ((run (init n) sched).tasks.getD i .reqPre) = true →
      isHolding ((run (init n) sched).tasks.getD j .reqPre) = true → i = j) ∧
    (∀ (sh : Shared) (f : Bool) (k : Nat),
      stepPC sh (.eaWait f k) =
        if sh.mutex then (sh, .eaWait f k) else (sh, .issue k)) ∧
    (∀ (n : Nat) (sched : List Nat), 0 < n →
      (∀ i, i < n →
        isDoneOk ((run (init n) sched).tasks.getD i .reqPre) = true) →
      1 ≤ (run (init n) sched).shared.netLogins ∧
      ∀ i, i < n →
        ∃ t, (run (init n) sched).tasks.getD i .reqPre = .doneOk t ∧
          1 ≤ t ∧ t ≤ (run (init n) sched).shared.netLogins) ∧
    ((run (init 10) sched10).tasks = List.replicate 10 (PC.doneOk 1) ∧
      (run (init 10) sched10).shared.netLogins = 1) := by
  refine ⟨?_, ?_, ?_, ?_⟩
  · intro n sched i j hi hj
    exact mutexInv_atMostOne _ (mutexInv_run sched _ (mutexInv_init n)) i j
      hi hj
  · intro sh f k
    rfl
  · intro n sched hn hall
    have htok := tokInv_run sched _ (tokInv_init n)
    obtain ⟨t0, _, ht1, ht2⟩ := allDone_tokens _ htok 0 (hall 0 hn)
    refine ⟨le_trans ht1 ht2, ?_⟩
    intro i hi
    exact allDone_tokens _ htok i (hall i hi)
  · exact ⟨by decide, by decide⟩

set_option maxRecDepth 1000000 in
theorem c9_mutex_spec_witness :
    (0 < 10 ∧
      (∀ i, i < 10 →
        isDoneOk ((run (init 10) sched10).tasks.getD i .reqPre) = true)) ∧
    (1 ≤ (run (init 10) sched10).shared.netLogins ∧
      ∀ i, i < 10 →
        ∃ t, (run (init 10) sched10).tasks.getD i .reqPre = .doneOk t ∧
          1 ≤ t ∧ t ≤ (run (init 10) sched10).shared.netLogins) :=
  ⟨⟨by decide, by decide⟩,
    c9_mutex_spec.2.2.1 10 sched10 (by decide) (by decide)⟩

end Conc

end XUI
